import Mathlib

/-!
Verification of the Kubernetes manifest validators of this repository
(`validate-k8s.py`, the baseline validator, and `validate-k8s-advanced.py`,
the advanced validator).

The Python code works on loosely typed YAML documents.  We embed such
documents as the inductive type `Val` (null, bool, integer, string,
sequence, mapping); a mapping is an association list with string keys, in
insertion order, mirroring a parsed YAML mapping / Python `dict`.  Python
operations that can raise (attribute errors on non-mappings, `in` on
non-containers, ordered comparison of non-integers) are modelled in the
`Option` monad: `none` is an exception, which the scripts catch at file
level and turn into a generic error finding.

Scalars are modelled as null / bool / int / string; YAML floats do not
occur in any claim and are not modelled.  Python's `str` of a container
value is not reproduced (no claim depends on it).
-/

inductive Val where
  | vnull
  | vbool (b : Bool)
  | vint (n : Int)
  | vstr (s : String)
  | vlist (l : List Val)
  | vmap (m : List (String × Val))
deriving Repr

/-! Python `==` on embedded YAML values (structural equality; the Python
coercions `True == 1` etc. do not occur in any claim and are not modelled). -/
mutual
def Val.beq : Val → Val → Bool
  | .vnull, .vnull => true
  | .vbool a, .vbool b => a == b
  | .vint a, .vint b => a == b
  | .vstr a, .vstr b => a == b
  | .vlist as, .vlist bs => beqL as bs
  | .vmap ms, .vmap ns => beqM ms ns
  | _, _ => false
def beqL : List Val → List Val → Bool
  | [], [] => true
  | a :: as, b :: bs => Val.beq a b && beqL as bs
  | _, _ => false
def beqM : List (String × Val) → List (String × Val) → Bool
  | [], [] => true
  | (k, v) :: ms, (l, w) :: ns => k == l && Val.beq v w && beqM ms ns
  | _, _ => false
end

/-! Decidable equality for `Val` (the automatic derivation does not
handle this nested inductive). -/
mutual
def Val.deq : (a b : Val) → Decidable (a = b)
  | .vnull, .vnull => .isTrue rfl
  | .vnull, .vbool _ => .isFalse (fun h => Val.noConfusion h)
  | .vnull, .vint _ => .isFalse (fun h => Val.noConfusion h)
  | .vnull, .vstr _ => .isFalse (fun h => Val.noConfusion h)
  | .vnull, .vlist _ => .isFalse (fun h => Val.noConfusion h)
  | .vnull, .vmap _ => .isFalse (fun h => Val.noConfusion h)
  | .vbool _, .vnull => .isFalse (fun h => Val.noConfusion h)
  | .vbool a, .vbool b =>
    match decEq a b with
    | .isTrue h => .isTrue (h ▸ rfl)
    | .isFalse h => .isFalse (fun he => h (Val.vbool.inj he))
  | .vbool _, .vint _ => .isFalse (fun h => Val.noConfusion h)
  | .vbool _, .vstr _ => .isFalse (fun h => Val.noConfusion h)
  | .vbool _, .vlist _ => .isFalse (fun h => Val.noConfusion h)
  | .vbool _, .vmap _ => .isFalse (fun h => Val.noConfusion h)
  | .vint _, .vnull => .isFalse (fun h => Val.noConfusion h)
  | .vint _, .vbool _ => .isFalse (fun h => Val.noConfusion h)
  | .vint a, .vint b =>
    match decEq a b with
    | .isTrue h => .isTrue (h ▸ rfl)
    | .isFalse h => .isFalse (fun he => h (Val.vint.inj he))
  | .vint _, .vstr _ => .isFalse (fun h => Val.noConfusion h)
  | .vint _, .vlist _ => .isFalse (fun h => Val.noConfusion h)
  | .vint _, .vmap _ => .isFalse (fun h => Val.noConfusion h)
  | .vstr _, .vnull => .isFalse (fun h => Val.noConfusion h)
  | .vstr _, .vbool _ => .isFalse (fun h => Val.noConfusion h)
  | .vstr _, .vint _ => .isFalse (fun h => Val.noConfusion h)
  | .vstr a, .vstr b =>
    match decEq a b with
    | .isTrue h => .isTrue (h ▸ rfl)
    | .isFalse h => .isFalse (fun he => h (Val.vstr.inj he))
  | .vstr _, .vlist _ => .isFalse (fun h => Val.noConfusion h)
  | .vstr _, .vmap _ => .isFalse (fun h => Val.noConfusion h)
  | .vlist _, .vnull => .isFalse (fun h => Val.noConfusion h)
  | .vlist _, .vbool _ => .isFalse (fun h => Val.noConfusion h)
  | .vlist _, .vint _ => .isFalse (fun h => Val.noConfusion h)
  | .vlist _, .vstr _ => .isFalse (fun h => Val.noConfusion h)
  | .vlist as, .vlist bs =>
    match deqL as bs with
    | .isTrue h => .isTrue (h ▸ rfl)
    | .isFalse h => .isFalse (fun he => h (Val.vlist.inj he))
  | .vlist _, .vmap _ => .isFalse (fun h => Val.noConfusion h)
  | .vmap _, .vnull => .isFalse (fun h => Val.noConfusion h)
  | .vmap _, .vbool _ => .isFalse (fun h => Val.noConfusion h)
  | .vmap _, .vint _ => .isFalse (fun h => Val.noConfusion h)
  | .vmap _, .vstr _ => .isFalse (fun h => Val.noConfusion h)
  | .vmap _, .vlist _ => .isFalse (fun h => Val.noConfusion h)
  | .vmap ms, .vmap ns =>
    match deqM ms ns with
    | .isTrue h => .isTrue (h ▸ rfl)
    | .isFalse h => .isFalse (fun he => h (Val.vmap.inj he))
def deqL : (as bs : List Val) → Decidable (as = bs)
  | [], [] => .isTrue rfl
  | [], _ :: _ => .isFalse (fun h => List.noConfusion h)
  | _ :: _, [] => .isFalse (fun h => List.noConfusion h)
  | a :: as, b :: bs =>
    match Val.deq a b, deqL as bs with
    | .isTrue h1, .isTrue h2 => .isTrue (by rw [h1, h2])
    | .isFalse h1, _ => .isFalse (fun he => h1 (List.cons.inj he).1)
    | _, .isFalse h2 => .isFalse (fun he => h2 (List.cons.inj he).2)
def deqM : (ms ns : List (String × Val)) → Decidable (ms = ns)
  | [], [] => .isTrue rfl
  | [], _ :: _ => .isFalse (fun h => List.noConfusion h)
  | _ :: _, [] => .isFalse (fun h => List.noConfusion h)
  | (k, v) :: ms, (l, w) :: ns =>
    match decEq k l, Val.deq v w, deqM ms ns with
    | .isTrue h0, .isTrue h1, .isTrue h2 => .isTrue (by rw [h0, h1, h2])
    | .isFalse h0, _, _ =>
      .isFalse (fun he => h0 (congrArg Prod.fst (List.cons.inj he).1))
    | _, .isFalse h1, _ =>
      .isFalse (fun he => h1 (congrArg Prod.snd (List.cons.inj he).1))
    | _, _, .isFalse h2 => .isFalse (fun he => h2 (List.cons.inj he).2)
end

instance : DecidableEq Val := Val.deq

/-- A parsed YAML mapping (Python `dict` with string keys). -/
abbrev Obj := List (String × Val)

/-- Python `d.get(k)`: first binding of `k`, if any (keys of a parsed
mapping are distinct). -/
def mget : Obj → String → Option Val
  | [], _ => none
  | (k, v) :: rest, key => if k = key then some v else mget rest key

/-- Python `k in d` for a dict `d`. -/
def containsKey (m : Obj) (k : String) : Bool :=
  (mget m k).isSome

/-- Using a value as a dict; `none` models the `AttributeError` Python
raises when `.get` is called on a non-mapping. -/
def Val.asMap : Val → Option Obj
  | .vmap m => some m
  | _ => none

/-- Using a value as a list (`for` iteration); `none` models the raised
`TypeError` otherwise. -/
def Val.asList : Val → Option (List Val)
  | .vlist l => some l
  | _ => none

/-- Using a value as a string (`'x' in image`); `none` models the raised
`TypeError` otherwise. -/
def Val.asStr : Val → Option String
  | .vstr s => some s
  | _ => none

/-- Python truthiness of an embedded value. -/
def pyTruthy : Val → Bool
  | .vnull => false
  | .vbool b => b
  | .vint n => n != 0
  | .vstr s => s ≠ ""
  | .vlist l => !l.isEmpty
  | .vmap m => !m.isEmpty

/-- Truthiness of `d.get(k)` (absent → `None` → falsy). -/
def pyTruthyOpt (o : Option Val) : Bool :=
  pyTruthy (o.getD .vnull)

/-- Python `d.get(k) is None`: the key is absent or bound to `None`. -/
def isPyNone (o : Option Val) : Bool :=
  match o.getD .vnull with
  | .vnull => true
  | _ => false

/-- Decidable prefix test on char lists. -/
def listPrefixB : List Char → List Char → Bool
  | [], _ => true
  | _ :: _, [] => false
  | a :: as, b :: bs => a == b && listPrefixB as bs

/-- Decidable substring search on char lists. -/
def listSub : List Char → List Char → Bool
  | pat, [] => pat.isEmpty
  | pat, l@(_ :: rest) => listPrefixB pat l || listSub pat rest

/-- Python `pat in s` for strings. -/
def strContains (s pat : String) : Bool :=
  listSub pat.data s.data

/-- Python `str` of an embedded value.  The textual form of sequence and
mapping values is not reproduced (no claim nor message in the validated
scripts depends on it). -/
def pyStr : Val → String
  | .vstr s => s
  | .vint n => toString n
  | .vbool true => "True"
  | .vbool false => "False"
  | .vnull => "None"
  | .vlist _ => "<sequence>"
  | .vmap _ => "<mapping>"

/-- Python `key in container` (dict key / string substring / list member);
`none` models the `TypeError` raised on other values. -/
def pyContains (container : Val) (key : String) : Option Bool :=
  match container with
  | .vmap m => some (containsKey m key)
  | .vstr s => some (strContains s key)
  | .vlist l => some (l.any (fun v => Val.beq v (.vstr key)))
  | _ => none

/-- Python dict merge `{**d1, **d2}`: keys of `d1` in order (values
overridden by `d2` where shared), then the keys only in `d2`. -/
def mergeDicts (d1 d2 : Obj) : Obj :=
  d1.map (fun kv => (kv.1, (mget d2 kv.1).getD kv.2)) ++
    d2.filter (fun kv => (mget d1 kv.1).isNone)

/-! Messages of `validate-k8s-advanced.py`, one definition per f-string. -/

def labelsWarn (fp : String) : String :=
  fp ++ ": Deployment template should have labels"

def selMsg (fp k : String) (v : Val) : String :=
  fp ++ ": Selector label " ++ k ++ "=" ++ pyStr v ++ " doesn't match template label"

def imageWarn (fp nm : String) : String :=
  fp ++ ": Container '" ++ nm ++ "' uses 'latest' tag or no tag"

def limitsWarn (fp nm : String) : String :=
  fp ++ ": Container '" ++ nm ++ "' has no resource limits"

def requestsWarn (fp nm : String) : String :=
  fp ++ ": Container '" ++ nm ++ "' has no resource requests"

def privErr (fp nm : String) : String :=
  fp ++ ": Container '" ++ nm ++ "' runs as privileged"

def nonRootWarn (fp nm : String) : String :=
  fp ++ ": Container '" ++ nm ++ "' doesn't explicitly set runAsNonRoot"

def roRootWarn (fp nm : String) : String :=
  fp ++ ": Container '" ++ nm ++ "' doesn't use readOnlyRootFilesystem"

def noSelWarn (fp : String) : String :=
  fp ++ ": Service has no selector"

def dupPortMsg (fp : String) (v : Val) : String :=
  fp ++ ": Duplicate port name '" ++ pyStr v ++ "'"

def tlsWarn (fp : String) : String :=
  fp ++ ": Ingress doesn't configure TLS"

def noHostWarn (fp : String) : String :=
  fp ++ ": Ingress rule has no host"

def exampleWarn (fp : String) : String :=
  fp ++ ": Ingress uses example.com (placeholder?)"

def secretWarn (fp k : String) : String :=
  fp ++ ": Secret '" ++ k ++ "' contains CHANGE_ME placeholder"

def hpaErr (fp : String) (mn mx : Val) : String :=
  fp ++ ": minReplicas (" ++ pyStr mn ++ ") >= maxReplicas (" ++ pyStr mx ++ ")"

def hpaWarn (fp : String) (mn : Val) : String :=
  fp ++ ": minReplicas is " ++ pyStr mn ++ " (consider >= 2 for HA)"

def npWarn (fp : String) : String :=
  fp ++ ": NetworkPolicy has no policyTypes"

/-- Per-document exception handler message `Error validating {file_path}: {e}`
of `validate_advanced`; the interpolated exception text is abstracted. -/
def excMsg (path : String) : String :=
  "Error validating " ++ path ++ ": <exception>"

/-- Selector/template agreement check of `validate_deployment`
(lines 25-31): runs only when both mappings are truthy, then emits one
error per selector pair whose key is absent from or differently bound in
the template labels. -/
def selectorErrors (fp : String) (selectorV tlV : Val) : Option (List String) :=
  if pyTruthy selectorV && pyTruthy tlV then do
    let sel ← selectorV.asMap
    let tl ← tlV.asMap
    some ((sel.filter
        (fun kv => !(Val.beq ((mget tl kv.1).getD .vnull) kv.2))).map
      (fun kv => selMsg fp kv.1 kv.2))
  else some []

/-- Container loop of `validate_deployment` (lines 33-57). -/
def containerChecks (fp : String) : List Val → Option (List String × List String)
  | [] => some ([], [])
  | c :: rest => do
    let cm ← c.asMap
    let nm := pyStr ((mget cm "name").getD (.vstr "unnamed"))
    let image ← ((mget cm "image").getD (.vstr "")).asStr
    let imgWarns := if strContains image ":latest" || !(strContains image ":") then
        [imageWarn fp nm] else []
    let resources ← ((mget cm "resources").getD (.vmap [])).asMap
    let limWarns := if pyTruthyOpt (mget resources "limits") then [] else [limitsWarn fp nm]
    let reqWarns := if pyTruthyOpt (mget resources "requests") then [] else [requestsWarn fp nm]
    let sc ← ((mget cm "securityContext").getD (.vmap [])).asMap
    let privErrs := if pyTruthyOpt (mget sc "privileged") then [privErr fp nm] else []
    let nrWarns := if pyTruthyOpt (mget sc "runAsNonRoot") then [] else [nonRootWarn fp nm]
    let roWarns := if pyTruthyOpt (mget sc "readOnlyRootFilesystem") then [] else [roRootWarn fp nm]
    let restRes ← containerChecks fp rest
    some (privErrs ++ restRes.1,
      imgWarns ++ limWarns ++ reqWarns ++ nrWarns ++ roWarns ++ restRes.2)

/-- `validate_deployment` of the advanced validator (also used for
StatefulSet documents). -/
def validate_deployment (doc : Obj) (fp : String) : Option (List String × List String) := do
  let spec ← ((mget doc "spec").getD (.vmap [])).asMap
  let template ← ((mget spec "template").getD (.vmap [])).asMap
  let pod_spec ← ((mget template "spec").getD (.vmap [])).asMap
  let metadata ← ((mget template "metadata").getD (.vmap [])).asMap
  let labelsWarns := if pyTruthyOpt (mget metadata "labels") then [] else [labelsWarn fp]
  let selOuter ← ((mget spec "selector").getD (.vmap [])).asMap
  let selectorV := (mget selOuter "matchLabels").getD (.vmap [])
  let tlV := (mget metadata "labels").getD (.vmap [])
  let selErrs ← selectorErrors fp selectorV tlV
  let containers ← ((mget pod_spec "containers").getD (.vlist [])).asList
  let contRes ← containerChecks fp containers
  some (selErrs ++ contRes.1, labelsWarns ++ contRes.2)

/-- Port loop of `validate_service` (lines 73-81): a duplicate-name error
for every occurrence of an already seen truthy port name. -/
def servicePortLoop (fp : String) : List Val → List Val → List String → Option (List String)
  | [], _, errs => some errs
  | p :: rest, seen, errs => do
    let pm ← p.asMap
    let pname := (mget pm "name").getD .vnull
    if pyTruthy pname then
      let errs' := if seen.any (fun s => Val.beq pname s) then
          errs ++ [dupPortMsg fp pname] else errs
      servicePortLoop fp rest (seen ++ [pname]) errs'
    else
      servicePortLoop fp rest seen errs

/-- `validate_service` of the advanced validator. -/
def validate_service (doc : Obj) (fp : String) : Option (List String × List String) := do
  let spec ← ((mget doc "spec").getD (.vmap [])).asMap
  let selector := (mget spec "selector").getD (.vmap [])
  let selWarns := if !(Val.beq ((mget spec "clusterIP").getD .vnull) (.vstr "None"))
      && !(pyTruthy selector) then [noSelWarn fp] else []
  let ports ← ((mget spec "ports").getD (.vlist [])).asList
  let errs ← servicePortLoop fp ports [] []
  some (errs, selWarns)

/-- Rule loop of `validate_ingress` (lines 96-103). -/
def ingressRuleLoop (fp : String) : List Val → Option (List String)
  | [] => some []
  | r :: rest => do
    let rm ← r.asMap
    let host := (mget rm "host").getD .vnull
    let w ← if !(pyTruthy host) then some [noHostWarn fp]
      else do
        let hs ← host.asStr
        some (if strContains hs "example.com" then [exampleWarn fp] else [])
    let ws ← ingressRuleLoop fp rest
    some (w ++ ws)

/-- `validate_ingress` of the advanced validator. -/
def validate_ingress (doc : Obj) (fp : String) : Option (List String × List String) := do
  let spec ← ((mget doc "spec").getD (.vmap [])).asMap
  let tlsWarns := if pyTruthyOpt (mget spec "tls") then [] else [tlsWarn fp]
  let rules ← ((mget spec "rules").getD (.vlist [])).asList
  let ruleWarns ← ingressRuleLoop fp rules
  some ([], tlsWarns ++ ruleWarns)

/-- `validate_secret` of the advanced validator: warns on every merged
`data`/`stringData` entry whose truthy value contains `CHANGE_ME`. -/
def validate_secret (doc : Obj) (fp : String) : Option (List String × List String) := do
  let data ← ((mget doc "data").getD (.vmap [])).asMap
  let sdata ← ((mget doc "stringData").getD (.vmap [])).asMap
  let all_data := mergeDicts data sdata
  some ([], all_data.filterMap (fun kv =>
    if pyTruthy kv.2 && strContains (pyStr kv.2) "CHANGE_ME" then
      some (secretWarn fp kv.1) else none))

/-- Python `a >= b`; `none` models the `TypeError` on non-integers. -/
def pyGe : Val → Val → Option Bool
  | .vint a, .vint b => some (a ≥ b)
  | _, _ => none

/-- Python `a < b`; `none` models the `TypeError` on non-integers. -/
def pyLt : Val → Val → Option Bool
  | .vint a, .vint b => some (a < b)
  | _, _ => none

/-- `validate_hpa` of the advanced validator: both replica bounds default
to 1 when unset. -/
def validate_hpa (doc : Obj) (fp : String) : Option (List String × List String) := do
  let spec ← ((mget doc "spec").getD (.vmap [])).asMap
  let minR := (mget spec "minReplicas").getD (.vint 1)
  let maxR := (mget spec "maxReplicas").getD (.vint 1)
  let ge ← pyGe minR maxR
  let errs := if ge then [hpaErr fp minR maxR] else []
  let lt ← pyLt minR (.vint 2)
  let warns := if lt then [hpaWarn fp minR] else []
  some (errs, warns)

/-- `validate_network_policy` of the advanced validator. -/
def validate_network_policy (doc : Obj) (fp : String) : Option (List String × List String) := do
  let spec ← ((mget doc "spec").getD (.vmap [])).asMap
  let pts ← ((mget spec "policyTypes").getD (.vlist [])).asList
  let warns := if !(pts.any (fun v => Val.beq v (.vstr "Ingress")))
      && !(pts.any (fun v => Val.beq v (.vstr "Egress"))) then [npWarn fp] else []
  some ([], warns)

/-- Per-document dispatch of `validate_advanced` (lines 164-198): fixed
kind table, unknown kinds fall through with zero findings, `None`
documents are skipped. -/
def dispatchDoc (doc : Val) (fp : String) : Option (List String × List String) :=
  match doc with
  | .vnull => some ([], [])
  | d =>
    match d.asMap with
    | none => none
    | some m =>
      let kind := (mget m "kind").getD (.vstr "")
      if Val.beq kind (.vstr "Deployment") || Val.beq kind (.vstr "StatefulSet") then
        validate_deployment m fp
      else if Val.beq kind (.vstr "Service") then validate_service m fp
      else if Val.beq kind (.vstr "Ingress") then validate_ingress m fp
      else if Val.beq kind (.vstr "Secret") then validate_secret m fp
      else if Val.beq kind (.vstr "HorizontalPodAutoscaler") then validate_hpa m fp
      else if Val.beq kind (.vstr "NetworkPolicy") then validate_network_policy m fp
      else some ([], [])

/-- Document loop of `validate_advanced`: findings accumulate in order; a
raised exception keeps the findings gathered so far, appends the generic
error and stops (the `except` branch of lines 200-201). -/
def advancedDocsGo (path fname : String) :
    List Val → List String → List String → List String × List String
  | [], errs, warns => (errs, warns)
  | d :: rest, errs, warns =>
    match dispatchDoc d fname with
    | none => (errs ++ [excMsg path], warns)
    | some ew => advancedDocsGo path fname rest (errs ++ ew.1) (warns ++ ew.2)

/-- `validate_advanced` on one already parsed file: `path` is the file
path interpolated in the exception message, `fname` the base name passed
to the kind validators. -/
def validate_advanced (path fname : String) (docs : List Val) : List String × List String :=
  advancedDocsGo path fname docs [] []

/-! Messages of `validate-k8s.py`, one definition per f-string. -/

def noDocsMsg (fp : String) : String :=
  "No documents found in " ++ fp

def missingApiMsg (i : Nat) (fp : String) : String :=
  "Document " ++ toString i ++ " in " ++ fp ++ ": Missing 'apiVersion'"

def missingKindMsg (i : Nat) (fp : String) : String :=
  "Document " ++ toString i ++ " in " ++ fp ++ ": Missing 'kind'"

def missingMetaMsg (i : Nat) (fp : String) : String :=
  "Document " ++ toString i ++ " in " ++ fp ++ ": Missing 'metadata'"

def missingNameMsg (i : Nat) (fp : String) : String :=
  "Document " ++ toString i ++ " in " ++ fp ++ ": Missing 'metadata.name'"

def deploySelErr (fp : String) : String :=
  fp ++ ": Deployment missing 'spec.selector'"

def deployTplErr (fp : String) : String :=
  fp ++ ": Deployment missing 'spec.template'"

def svcSelWarnB (fp : String) : String :=
  fp ++ ": Service missing 'spec.selector' (headless?)"

def svcPortsErr (fp : String) : String :=
  fp ++ ": Service missing 'spec.ports'"

def secretNoDataMsg (fp : String) : String :=
  fp ++ ": Secret has no data or stringData"

def cmNoDataWarn (fp : String) : String :=
  fp ++ ": ConfigMap has no data"

def ingressRulesErr (fp : String) : String :=
  fp ++ ": Ingress missing 'spec.rules'"

/-- Generic exception message `Error reading {file_path}: {e}` of
`validate_yaml_file`; the interpolated exception text is abstracted. -/
def readErrMsg (fp : String) : String :=
  "Error reading " ++ fp ++ ": <exception>"

/-- Kind-specific baseline checks of `validate_yaml_file` (lines 47-75). -/
def baselineKindChecks (fp : String) (m : Obj) : Option (List String × List String) :=
  let kind := (mget m "kind").getD (.vstr "")
  if Val.beq kind (.vstr "Deployment") then do
    let specV := (mget m "spec").getD (.vmap [])
    let hasSel ← pyContains specV "selector"
    let hasTpl ← pyContains specV "template"
    some ((if hasSel then [] else [deploySelErr fp])
      ++ (if hasTpl then [] else [deployTplErr fp]), [])
  else if Val.beq kind (.vstr "Service") then do
    let specV := (mget m "spec").getD (.vmap [])
    let hasSel ← pyContains specV "selector"
    let hasPorts ← pyContains specV "ports"
    some ((if hasPorts then [] else [svcPortsErr fp]),
      (if hasSel then [] else [svcSelWarnB fp]))
  else if Val.beq kind (.vstr "Secret") then
    some ((if isPyNone (mget m "data") && isPyNone (mget m "stringData") then
      [secretNoDataMsg fp] else []), [])
  else if Val.beq kind (.vstr "ConfigMap") then
    some ([], (if isPyNone (mget m "data") then [cmNoDataWarn fp] else []))
  else if Val.beq kind (.vstr "Ingress") then do
    let specV := (mget m "spec").getD (.vmap [])
    let hasRules ← pyContains specV "rules"
    some ((if hasRules then [] else [ingressRulesErr fp]), [])
  else some ([], [])

/-- One document of the baseline `validate_yaml_file` (lines 25-75):
Kustomization documents and files named `kustomization.yaml` are skipped,
then the four required fields are checked, then the kind-specific rules. -/
def validateDocBaseline (fp fbase : String) (i : Nat) (doc : Val) :
    Option (List String × List String) :=
  match doc with
  | .vnull => some ([], [])
  | d =>
    match d.asMap with
    | none => none
    | some m =>
      let kind0 := (mget m "kind").getD (.vstr "")
      if Val.beq kind0 (.vstr "Kustomization") || fbase = "kustomization.yaml" then
        some ([], [])
      else do
        let apiErrs := if containsKey m "apiVersion" then [] else [missingApiMsg i fp]
        let kindErrs := if containsKey m "kind" then [] else [missingKindMsg i fp]
        let metaErrs ← if !(containsKey m "metadata") then some [missingMetaMsg i fp]
          else do
            let b ← pyContains ((mget m "metadata").getD (.vmap [])) "name"
            some (if b then [] else [missingNameMsg i fp])
        let kres ← baselineKindChecks fp m
        some (apiErrs ++ kindErrs ++ metaErrs ++ kres.1, kres.2)

/-- Document loop of `validate_yaml_file`: findings accumulate in order;
an exception keeps the findings gathered so far, appends the generic read
error and stops (the `except` branch of lines 79-80). -/
def validateFileGo (fp fbase : String) :
    Nat → List Val → List String → List String → List String × List String
  | _, [], errs, warns => (errs, warns)
  | i, d :: rest, errs, warns =>
    match validateDocBaseline fp fbase i d with
    | none => (errs ++ [readErrMsg fp], warns)
    | some ew => validateFileGo fp fbase (i + 1) rest (errs ++ ew.1) (warns ++ ew.2)

/-- `validate_yaml_file` on one already parsed file. -/
def validate_yaml_file (fp fbase : String) (docs : List Val) :
    List String × List String :=
  if docs.isEmpty then ([noDocsMsg fp], []) else validateFileGo fp fbase 0 docs [] []

/-! The cross-file label-consistency checker of the advanced validator. -/

/-- Python `set.add`, with the set as the list of its elements in
insertion order. -/
def setInsertV (s : List Val) (v : Val) : List Val :=
  if s.any (fun x => Val.beq x v) then s else s ++ [v]

/-- Python `set.update`. -/
def unionV (s t : List Val) : List Val :=
  t.foldl setInsertV s

/-- Per-file scan of `check_label_consistency` (lines 221-230): collects
the truthy `metadata.labels.app` values of a file's documents; an
exception (non-mapping where a mapping is needed) silently keeps what was
collected so far and skips the rest of the file (lines 232-233). -/
def fileAppsGo : List Val → List Val → List Val
  | [], acc => acc
  | d :: rest, acc =>
    match d with
    | .vnull => fileAppsGo rest acc
    | other =>
      match other.asMap with
      | none => acc
      | some m =>
        match ((mget m "metadata").getD (.vmap [])).asMap with
        | none => acc
        | some md =>
          match ((mget md "labels").getD (.vmap [])).asMap with
          | none => acc
          | some lbls =>
            let app := (mget lbls "app").getD .vnull
            if pyTruthy app then fileAppsGo rest (setInsertV acc app)
            else fileAppsGo rest acc

/-- One manifest file of the scanned directory: base name and parsed
documents (the loader is exercised on already parsed input). -/
structure MFile where
  name : String
  docs : List Val
deriving Repr

/-- Path under the fixed `k8s` directory, as interpolated in messages and
used as Python's sort key. -/
def pathOf (f : MFile) : String :=
  "k8s/" ++ f.name

/-- The files both mains scan: every `.yaml` file except
`kustomization.yaml` (the baseline main does not exclude it from the file
list; its exclusion there happens per document). -/
def advFiles (files : List MFile) : List MFile :=
  files.filter (fun f => f.name ≠ "kustomization.yaml")

def labelCountMsg (n : Nat) : String :=
  "Found " ++ toString n ++ " different 'app' labels. Consider standardization."

/-- Number of distinct `app` label values over the whole scanned corpus. -/
def distinctAppCount (files : List MFile) : Nat :=
  ((advFiles files).foldl (fun acc f => unionV acc (fileAppsGo f.docs [])) []).length

/-- `check_label_consistency`: never errors; one warning citing the
distinct count when it exceeds 5. -/
def check_label_consistency (files : List MFile) : List String × List String :=
  ([], if distinctAppCount files > 5 then [labelCountMsg (distinctAppCount files)] else [])

/-! The report aggregation shared by both `main` functions. -/

/-- Python `sorted(yaml_files)` compares the `k8s/...` paths. -/
def fileLe (a b : MFile) : Bool :=
  decide (pathOf a ≤ pathOf b)

def sortFiles (files : List MFile) : List MFile :=
  files.mergeSort fileLe

/-- Per-file output block: error lines, else warning lines, else a pass
marker (lines 105-116 of the baseline main, 257-268 of the advanced one). -/
def fileBlock (name : String) (errs warns : List String) : List String :=
  if !errs.isEmpty then ("❌ " ++ name ++ ":") :: errs.map (fun e => "   ERROR: " ++ e)
  else if !warns.isEmpty then
    ("⚠️  " ++ name ++ ":") :: warns.map (fun w => "   WARNING: " ++ w)
  else ["✅ " ++ name]

/-- The per-file loop of both mains over (name, errors, warnings)
results: output lines, accumulated `all_errors`, accumulated
`all_warnings` (warnings only from files without errors). -/
def processFiles :
    List (String × List String × List String) →
      List String × List String × List String
  | [] => ([], [], [])
  | r :: rest =>
    let acc := processFiles rest
    (fileBlock r.1 r.2.1 r.2.2 ++ acc.1,
     (if !r.2.1.isEmpty then r.2.1 else []) ++ acc.2.1,
     (if r.2.1.isEmpty && !r.2.2.isEmpty then r.2.2 else []) ++ acc.2.2)

/-- Baseline main: per-file loop over the sorted file list. -/
def runSimple (files : List MFile) : List String × List String × List String :=
  processFiles ((sortFiles files).map
    (fun f => (f.name, validate_yaml_file (pathOf f) f.name f.docs)))

/-- Exit code of the baseline main: directory with no YAML files exits 1
before any validation; otherwise 1 exactly when `all_errors` is
non-empty. -/
def mainSimpleExit (files : List MFile) : Nat :=
  if files.isEmpty then 1
  else if !(runSimple files).2.1.isEmpty then 1 else 0

def sepLine : String :=
  String.mk (List.replicate 60 '=')

def summaryLines (count errs warns : Nat) : List String :=
  ["", sepLine, "Summary:", "  Files checked: " ++ toString count,
   "  Errors: " ++ toString errs, "  Warnings: " ++ toString warns]

/-- Full standard output of the baseline main, as a list of lines. -/
def simpleReport (files : List MFile) : List String :=
  if files.isEmpty then ["❌ No YAML files found in k8s directory"]
  else
    let r := runSimple files
    ["🔍 Validating " ++ toString files.length ++ " Kubernetes manifest files...", ""]
      ++ r.1 ++ summaryLines files.length r.2.1.length r.2.2.length
      ++ (if !r.2.1.isEmpty then
            ["", "❌ Validation FAILED with " ++ toString r.2.1.length ++ " error(s)"]
          else if !r.2.2.isEmpty then
            ["", "⚠️  Validation passed with " ++ toString r.2.2.length ++ " warning(s)"]
          else ["", "✅ All manifests are valid!"])

/-- Advanced main: per-file loop over the sorted, kustomization-free file
list. -/
def runAdvanced (files : List MFile) : List String × List String × List String :=
  processFiles ((sortFiles (advFiles files)).map
    (fun f => (f.name, validate_advanced (pathOf f) f.name f.docs)))

/-- Exit code of the advanced main: 1 exactly when `all_errors` (per-file
errors plus consistency errors) is non-empty. -/
def mainAdvancedExit (files : List MFile) : Nat :=
  if !((runAdvanced files).2.1 ++ (check_label_consistency files).1).isEmpty then 1
  else 0

/-- Full standard output of the advanced main, as a list of lines. -/
def advancedReport (files : List MFile) : List String :=
  let ys := advFiles files
  let r := runAdvanced files
  let c := check_label_consistency files
  let allE := r.2.1 ++ c.1
  let allW := r.2.2 ++ c.2
  ["🔍 Running advanced validation on " ++ toString ys.length ++ " manifest files...", ""]
    ++ r.1
    ++ ["", "📋 Checking label consistency..."]
    ++ c.1.map (fun e => "   ERROR: " ++ e)
    ++ (if !c.2.isEmpty then c.2.map (fun w => "   WARNING: " ++ w)
        else ["   ✅ Labels are consistent"])
    ++ summaryLines ys.length allE.length allW.length
    ++ (if !allE.isEmpty then
          ["", "❌ Advanced validation FAILED with " ++ toString allE.length ++ " error(s)"]
        else if !allW.isEmpty then
          ["", "⚠️  Advanced validation passed with " ++ toString allW.length ++ " warning(s)",
           "   (Warnings are suggestions, not blockers)"]
        else ["", "✅ All manifests pass advanced validation!"])

/-- Total number of Error findings of a baseline run. -/
def totalErrorsSimple (files : List MFile) : Nat :=
  (files.map (fun f => (validate_yaml_file (pathOf f) f.name f.docs).1.length)).sum

/-- Total number of Error findings of an advanced run. -/
def totalErrorsAdvanced (files : List MFile) : Nat :=
  ((advFiles files).map (fun f => (validate_advanced (pathOf f) f.name f.docs).1.length)).sum
    + (check_label_consistency files).1.length

/-- The `name` value of a port entry (`port.get('name')`, `None` when the
key is absent), defined when the port is a mapping. -/
def pNameOf : Val → Option Val
  | .vmap m => some ((mget m "name").getD .vnull)
  | _ => none

/-- Number of declared ports bearing the string name `s`. -/
def namedCount (s : String) (ports : List Val) : Nat :=
  ports.countP (fun p => decide (pNameOf p = some (.vstr s)))

/-- Shape guard for port entries in the claims: a mapping whose `name`,
if present, is `None` or a string. -/
def portShapeOk : Val → Bool
  | .vmap m =>
    match (mget m "name").getD .vnull with
    | .vnull => true
    | .vstr _ => true
    | _ => false
  | _ => false

/-- Shape guard for selector pairs in the claims: a label key without the
`=` character and a string label value. -/
def selPairOk (kv : String × Val) : Bool :=
  !(kv.1.data.contains '=') &&
    (match kv.2 with
     | .vstr _ => true
     | _ => false)

/-! Foundational lemmas: `Val.beq` coincides with propositional equality. -/

mutual
theorem Val.eq_of_beq : ∀ a b : Val, Val.beq a b = true → a = b
  | .vnull, .vnull, _ => rfl
  | .vnull, .vbool _, h => nomatch h
  | .vnull, .vint _, h => nomatch h
  | .vnull, .vstr _, h => nomatch h
  | .vnull, .vlist _, h => nomatch h
  | .vnull, .vmap _, h => nomatch h
  | .vbool _, .vnull, h => nomatch h
  | .vbool a, .vbool b, h => by
    have hab : a = b := by simpa [Val.beq] using h
    rw [hab]
  | .vbool _, .vint _, h => nomatch h
  | .vbool _, .vstr _, h => nomatch h
  | .vbool _, .vlist _, h => nomatch h
  | .vbool _, .vmap _, h => nomatch h
  | .vint _, .vnull, h => nomatch h
  | .vint _, .vbool _, h => nomatch h
  | .vint a, .vint b, h => by
    have hab : a = b := by simpa [Val.beq] using h
    rw [hab]
  | .vint _, .vstr _, h => nomatch h
  | .vint _, .vlist _, h => nomatch h
  | .vint _, .vmap _, h => nomatch h
  | .vstr _, .vnull, h => nomatch h
  | .vstr _, .vbool _, h => nomatch h
  | .vstr _, .vint _, h => nomatch h
  | .vstr a, .vstr b, h => by
    have hab : a = b := by simpa [Val.beq] using h
    rw [hab]
  | .vstr _, .vlist _, h => nomatch h
  | .vstr _, .vmap _, h => nomatch h
  | .vlist _, .vnull, h => nomatch h
  | .vlist _, .vbool _, h => nomatch h
  | .vlist _, .vint _, h => nomatch h
  | .vlist _, .vstr _, h => nomatch h
  | .vlist as, .vlist bs, h => by
    have hab : as = bs := eqL_of_beqL as bs (by simpa [Val.beq] using h)
    rw [hab]
  | .vlist _, .vmap _, h => nomatch h
  | .vmap _, .vnull, h => nomatch h
  | .vmap _, .vbool _, h => nomatch h
  | .vmap _, .vint _, h => nomatch h
  | .vmap _, .vstr _, h => nomatch h
  | .vmap _, .vlist _, h => nomatch h
  | .vmap ms, .vmap ns, h => by
    have hab : ms = ns := eqM_of_beqM ms ns (by simpa [Val.beq] using h)
    rw [hab]
theorem eqL_of_beqL : ∀ as bs : List Val, beqL as bs = true → as = bs
  | [], [], _ => rfl
  | [], _ :: _, h => nomatch h
  | _ :: _, [], h => nomatch h
  | a :: as, b :: bs, h => by
    have h1 : Val.beq a b = true ∧ beqL as bs = true := by simpa [beqL] using h
    rw [Val.eq_of_beq a b h1.1, eqL_of_beqL as bs h1.2]
theorem eqM_of_beqM : ∀ ms ns : List (String × Val), beqM ms ns = true → ms = ns
  | [], [], _ => rfl
  | [], _ :: _, h => nomatch h
  | _ :: _, [], h => nomatch h
  | (k, v) :: ms, (l, w) :: ns, h => by
    have h1 : (k = l ∧ Val.beq v w = true) ∧ beqM ms ns = true := by simpa [beqM] using h
    rw [h1.1.1, Val.eq_of_beq v w h1.1.2, eqM_of_beqM ms ns h1.2]
end

mutual
theorem Val.beq_refl : ∀ a : Val, Val.beq a a = true
  | .vnull => rfl
  | .vbool b => by simp [Val.beq]
  | .vint n => by simp [Val.beq]
  | .vstr s => by simp [Val.beq]
  | .vlist as => by simpa [Val.beq] using beqL_refl as
  | .vmap ms => by simpa [Val.beq] using beqM_refl ms
theorem beqL_refl : ∀ as : List Val, beqL as as = true
  | [] => rfl
  | a :: as => by simp [beqL, Val.beq_refl a, beqL_refl as]
theorem beqM_refl : ∀ ms : List (String × Val), beqM ms ms = true
  | [] => rfl
  | (k, v) :: ms => by simp [beqM, Val.beq_refl v, beqM_refl ms]
end

theorem val_beq_iff (a b : Val) : Val.beq a b = true ↔ a = b :=
  ⟨Val.eq_of_beq a b, fun h => h ▸ Val.beq_refl a⟩

theorem val_beq_eq_false_iff (a b : Val) : Val.beq a b = false ↔ a ≠ b := by
  rw [← Bool.not_eq_true, not_iff_not]
  exact val_beq_iff a b

/-! String lemmas: concatenation is cancellative. -/

theorem str_lcancel {a b c : String} (h : a ++ b = a ++ c) : b = c := by
  apply String.ext
  have hd := congrArg String.data h
  simp only [String.data_append] at hd
  exact List.append_cancel_left hd

theorem str_rcancel {a b c : String} (h : a ++ c = b ++ c) : a = b := by
  apply String.ext
  have hd := congrArg String.data h
  simp only [String.data_append] at hd
  exact List.append_cancel_right hd

/-- C3: a document (mapping) whose `kind` is none of Deployment,
StatefulSet, Service, Ingress, Secret, HorizontalPodAutoscaler or
NetworkPolicy — including a missing `kind` field, which defaults to the
empty string — gets zero findings from the advanced per-document
dispatch. -/
theorem c3_unknown_kind_zero_findings (m : Obj) (fp : String)
    (h : ∀ s ∈ (["Deployment", "StatefulSet", "Service", "Ingress", "Secret",
        "HorizontalPodAutoscaler", "NetworkPolicy"] : List String),
      (mget m "kind").getD (.vstr "") ≠ .vstr s) :
    dispatchDoc (.vmap m) fp = some ([], []) := by
  have hb : ∀ s, (mget m "kind").getD (.vstr "") ≠ .vstr s →
      Val.beq ((mget m "kind").getD (.vstr "")) (.vstr s) = false :=
    fun s hs => (val_beq_eq_false_iff _ _).mpr hs
  simp only [dispatchDoc, Val.asMap]
  rw [hb _ (h "Deployment" (by simp)), hb _ (h "StatefulSet" (by simp)),
    hb _ (h "Service" (by simp)), hb _ (h "Ingress" (by simp)),
    hb _ (h "Secret" (by simp)), hb _ (h "HorizontalPodAutoscaler" (by simp)),
    hb _ (h "NetworkPolicy" (by simp))]
  simp

/-- Witness for C3: a ConfigMap document is dispatched with zero
findings. -/
theorem c3_witness :
    dispatchDoc (.vmap [("kind", Val.vstr "ConfigMap"),
      ("metadata", Val.vmap [("name", Val.vstr "c")])]) "cm.yaml" = some ([], []) :=
  c3_unknown_kind_zero_findings _ "cm.yaml" (by decide)

/-- C4: `validate_hpa` with integer bounds (each defaulting to 1 when
unset) errors exactly when `minReplicas >= maxReplicas` and warns exactly
when `minReplicas < 2`. -/
theorem c4_hpa_bounds (doc spec : Obj) (fp : String) (mn mx : Int)
    (hs : (mget doc "spec").getD (.vmap []) = .vmap spec)
    (hmn : (mget spec "minReplicas").getD (.vint 1) = .vint mn)
    (hmx : (mget spec "maxReplicas").getD (.vint 1) = .vint mx) :
    validate_hpa doc fp =
      some ((if mn ≥ mx then [hpaErr fp (.vint mn) (.vint mx)] else []),
        (if mn < 2 then [hpaWarn fp (.vint mn)] else [])) := by
  simp [validate_hpa, hs, hmn, hmx, Val.asMap, pyGe, pyLt]

/-- Witness for C4: `minReplicas=3, maxReplicas=5` yields zero Errors and
zero Warnings. -/
theorem c4_witness :
    validate_hpa [("spec", Val.vmap [("minReplicas", Val.vint 3),
      ("maxReplicas", Val.vint 5)])] "h.yaml" = some ([], []) := by
  have h := c4_hpa_bounds
    [("spec", Val.vmap [("minReplicas", Val.vint 3), ("maxReplicas", Val.vint 5)])]
    [("minReplicas", Val.vint 3), ("maxReplicas", Val.vint 5)]
    "h.yaml" 3 5 (by decide) (by decide) (by decide)
  simpa using h

/-- A key that has a binding in a mapping is found by `mget`. -/
theorem mget_isSome_of_mem :
    ∀ {d : Obj} {k : String} {v : Val}, (k, v) ∈ d → (mget d k).isSome = true
  | (k1, v1) :: rest, k, v, h => by
    rcases List.mem_cons.mp h with h1 | h1
    · cases h1
      simp [mget]
    · by_cases hk : k1 = k
      · simp [mget, hk]
      · simpa [mget, hk] using mget_isSome_of_mem h1

/-- The Secret placeholder warning determines its key. -/
theorem secretWarn_inj {fp a b : String} (h : secretWarn fp a = secretWarn fp b) :
    a = b :=
  str_lcancel (str_rcancel h)

/-- C7: for a Secret document (in a file other than `kustomization.yaml`,
with its `metadata` a mapping or absent), the baseline validator emits
the no-data Error exactly when both `data` and `stringData` are absent or
`None`; its errors are exactly the missing-field errors followed by that
one, and it emits no warnings.  In particular `data` and `stringData`
present as empty mappings do not trigger the Error. -/
theorem c7_secret_no_data (fp fbase : String) (i : Nat) (m md : Obj)
    (hkind : (mget m "kind").getD (.vstr "") = .vstr "Secret")
    (hbase : fbase ≠ "kustomization.yaml")
    (hmd : (mget m "metadata").getD (.vmap []) = .vmap md) :
    validateDocBaseline fp fbase i (.vmap m) =
      some ((if containsKey m "apiVersion" then [] else [missingApiMsg i fp])
        ++ (if containsKey m "metadata" then
              (if containsKey md "name" then [] else [missingNameMsg i fp])
            else [missingMetaMsg i fp])
        ++ (if isPyNone (mget m "data") && isPyNone (mget m "stringData") then
              [secretNoDataMsg fp] else []), []) := by
  have hkmem : mget m "kind" = some (.vstr "Secret") := by
    cases hk : mget m "kind" with
    | none => rw [hk] at hkind; simp at hkind
    | some v => rw [hk] at hkind; simpa using hkind
  have hck : containsKey m "kind" = true := by simp [containsKey, hkmem]
  simp only [validateDocBaseline, Val.asMap, hkind, hmd, baselineKindChecks,
    Val.beq, hck, pyContains]
  by_cases hm : containsKey m "metadata" = true
  · simp [hbase, hm]
  · simp [hbase, hm]

/-- Witness for C7: a Secret whose `data` and `stringData` are present
but empty mappings gets no findings at all, in particular no no-data
Error. -/
theorem c7_witness :
    validateDocBaseline "k8s/sec.yaml" "sec.yaml" 0
      (.vmap [("apiVersion", Val.vstr "v1"), ("kind", Val.vstr "Secret"),
        ("metadata", Val.vmap [("name", Val.vstr "s")]),
        ("data", Val.vmap []), ("stringData", Val.vmap [])]) = some ([], []) := by
  have h := c7_secret_no_data "k8s/sec.yaml" "sec.yaml" 0
    [("apiVersion", Val.vstr "v1"), ("kind", Val.vstr "Secret"),
      ("metadata", Val.vmap [("name", Val.vstr "s")]),
      ("data", Val.vmap []), ("stringData", Val.vmap [])]
    [("name", Val.vstr "s")] (by decide) (by decide) (by decide)
  rw [h]
  decide

/-- C10: in `validate_secret`, `stringData` overrides `data` on shared
keys: a key whose `data` value contains `CHANGE_ME` but whose
`stringData` value is a string without it produces no placeholder
Warning. -/
theorem c10_stringdata_precedence (fp k : String) (doc d sd : Obj) (v : Val) (w : String)
    (hd : (mget doc "data").getD (.vmap []) = .vmap d)
    (hsd : (mget doc "stringData").getD (.vmap []) = .vmap sd)
    (hk : (k, v) ∈ d)
    (_hv : strContains (pyStr v) "CHANGE_ME" = true)
    (hw : mget sd k = some (.vstr w))
    (hwn : strContains w "CHANGE_ME" = false) :
    ∃ warns, validate_secret doc fp = some ([], warns) ∧
      secretWarn fp k ∉ warns := by
  refine ⟨(mergeDicts d sd).filterMap (fun kv =>
      if pyTruthy kv.2 && strContains (pyStr kv.2) "CHANGE_ME" then
        some (secretWarn fp kv.1) else none), ?_, ?_⟩
  · simp only [validate_secret, hd, hsd]
    rfl
  intro hmem
  rw [List.mem_filterMap] at hmem
  obtain ⟨kv, hkv, hf⟩ := hmem
  have hcond : (pyTruthy kv.2 && strContains (pyStr kv.2) "CHANGE_ME") = true := by
    by_contra hc
    rw [Bool.not_eq_true] at hc
    rw [hc] at hf
    simp at hf
  rw [hcond] at hf
  simp only [if_true, Option.some.injEq] at hf
  have hkeq : kv.1 = k := secretWarn_inj hf
  rcases List.mem_append.mp hkv with hin | hin
  · obtain ⟨kv0, hkv0, hmap⟩ := List.mem_map.mp hin
    have h1 : kv0.1 = k := by rw [← hmap] at hkeq; exact hkeq
    have h2 : kv.2 = .vstr w := by
      rw [← hmap]
      simp only [h1, hw, Option.getD_some]
    rw [h2] at hcond
    simp only [pyStr] at hcond
    rw [hwn] at hcond
    simp at hcond
  · have hfil := List.of_mem_filter hin
    have hsome : (mget d kv.1).isSome = true := by
      rw [hkeq]
      exact mget_isSome_of_mem hk
    rw [Option.isNone_iff_eq_none] at hfil
    rw [hfil] at hsome
    simp at hsome

/-- Witness for C10: `data.pw` holds a `CHANGE_ME` placeholder but
`stringData.pw` overrides it, so no Warning names `pw`. -/
theorem c10_witness :
    ∃ warns, validate_secret [("kind", Val.vstr "Secret"),
      ("data", Val.vmap [("pw", Val.vstr "CHANGE_ME_NOW")]),
      ("stringData", Val.vmap [("pw", Val.vstr "realvalue")])] "sec.yaml" =
        some ([], warns) ∧ secretWarn "sec.yaml" "pw" ∉ warns :=
  c10_stringdata_precedence "sec.yaml" "pw" _
    [("pw", Val.vstr "CHANGE_ME_NOW")] [("pw", Val.vstr "realvalue")]
    (Val.vstr "CHANGE_ME_NOW") "realvalue"
    (by decide) (by decide) (by simp) (by decide) (by decide) (by decide)

/-- Membership in the seen-name set is what the loop's `any` computes. -/
theorem any_beq_iff_mem (v : Val) (l : List Val) :
    (l.any (fun x => Val.beq v x)) = true ↔ v ∈ l := by
  simp only [List.any_eq_true]
  constructor
  · rintro ⟨x, hx, hb⟩
    rw [Val.eq_of_beq v x hb]
    exact hx
  · intro hv
    exact ⟨v, hv, Val.beq_refl v⟩

/-- The duplicate-port-name error determines the (string) port name. -/
theorem dupPortMsg_inj_str {fp a b : String}
    (h : dupPortMsg fp (.vstr a) = dupPortMsg fp (.vstr b)) : a = b := by
  simp only [dupPortMsg, pyStr] at h
  exact str_lcancel (str_rcancel h)


/-- Loop step: a port whose name is falsy is skipped. -/
theorem spl_skip {fp : String} {m : Obj} {rest seen : List Val} {errs : List String}
    {v : Val} (hname : (mget m "name").getD .vnull = v) (hfalse : pyTruthy v = false) :
    servicePortLoop fp (Val.vmap m :: rest) seen errs =
      servicePortLoop fp rest seen errs := by
  simp [servicePortLoop, Val.asMap, hname, hfalse]

/-- Loop step: a truthy, already seen port name appends one duplicate
error. -/
theorem spl_dup {fp : String} {m : Obj} {rest seen : List Val} {errs : List String}
    {t : String} (hname : (mget m "name").getD .vnull = .vstr t) (ht : t ≠ "")
    (hmem : Val.vstr t ∈ seen) :
    servicePortLoop fp (Val.vmap m :: rest) seen errs =
      servicePortLoop fp rest (seen ++ [Val.vstr t])
        (errs ++ [dupPortMsg fp (Val.vstr t)]) := by
  have hex : ∃ x ∈ seen, (Val.vstr t).beq x = true :=
    ⟨Val.vstr t, hmem, Val.beq_refl _⟩
  simp [servicePortLoop, Val.asMap, hname, pyTruthy, ht, hex]

/-- Loop step: a truthy, fresh port name is recorded without an error. -/
theorem spl_fresh {fp : String} {m : Obj} {rest seen : List Val} {errs : List String}
    {t : String} (hname : (mget m "name").getD .vnull = .vstr t) (ht : t ≠ "")
    (hmem : Val.vstr t ∉ seen) :
    servicePortLoop fp (Val.vmap m :: rest) seen errs =
      servicePortLoop fp rest (seen ++ [Val.vstr t]) errs := by
  have hnex : ¬ ∃ x ∈ seen, (Val.vstr t).beq x = true := by
    rintro ⟨x, hx, hb⟩
    rw [← Val.eq_of_beq _ _ hb] at hx
    exact hmem hx
  simp [servicePortLoop, Val.asMap, hname, pyTruthy, ht, hnex]

/-- Invariant of the port loop: on well-shaped ports it never raises, and
the number of duplicate-name errors for the nonempty name `s` grows by
one per occurrence of `s`, except that the first occurrence is free when
`s` has not been seen yet. -/
theorem servicePortLoop_count (fp s : String) (hs : s ≠ "") :
    ∀ (ports seen : List Val) (errs : List String),
      ports.all portShapeOk = true →
      ∃ res, servicePortLoop fp ports seen errs = some res ∧
        res.count (dupPortMsg fp (.vstr s)) =
          errs.count (dupPortMsg fp (.vstr s)) +
            (if Val.vstr s ∈ seen then namedCount s ports
             else namedCount s ports - 1)
  | [], seen, errs, _ => by
    refine ⟨errs, rfl, ?_⟩
    by_cases hmem : Val.vstr s ∈ seen <;> simp [namedCount, hmem]
  | p :: rest, seen, errs, hall => by
    rw [List.all_cons, Bool.and_eq_true] at hall
    obtain ⟨hp, hrest⟩ := hall
    cases p with
    | vnull => simp [portShapeOk] at hp
    | vbool b => simp [portShapeOk] at hp
    | vint n => simp [portShapeOk] at hp
    | vstr t => simp [portShapeOk] at hp
    | vlist l => simp [portShapeOk] at hp
    | vmap m =>
      cases hname : (mget m "name").getD .vnull with
      | vbool b => simp [portShapeOk, hname] at hp
      | vint n => simp [portShapeOk, hname] at hp
      | vlist l => simp [portShapeOk, hname] at hp
      | vmap mm => simp [portShapeOk, hname] at hp
      | vnull =>
        obtain ⟨res, h1, h2⟩ := servicePortLoop_count fp s hs rest seen errs hrest
        refine ⟨res, by rw [spl_skip hname (by simp [pyTruthy])]; exact h1, ?_⟩
        have hnc : namedCount s (Val.vmap m :: rest) = namedCount s rest := by
          simp [namedCount, List.countP_cons, pNameOf, hname]
        rw [h2, hnc]
      | vstr t =>
        by_cases htrunc : t = ""
        · subst htrunc
          obtain ⟨res, h1, h2⟩ := servicePortLoop_count fp s hs rest seen errs hrest
          refine ⟨res, by rw [spl_skip hname (by simp [pyTruthy])]; exact h1, ?_⟩
          have hnc : namedCount s (Val.vmap m :: rest) = namedCount s rest := by
            simp [namedCount, List.countP_cons, pNameOf, hname, Ne.symm hs]
          rw [h2, hnc]
        · by_cases hts : t = s
          · subst hts
            have hnc : namedCount t (Val.vmap m :: rest) = namedCount t rest + 1 := by
              simp [namedCount, List.countP_cons, pNameOf, hname]
            by_cases hmem : Val.vstr t ∈ seen
            · obtain ⟨res, h1, h2⟩ := servicePortLoop_count fp t hs rest
                (seen ++ [Val.vstr t]) (errs ++ [dupPortMsg fp (Val.vstr t)]) hrest
              refine ⟨res, by rw [spl_dup hname htrunc hmem]; exact h1, ?_⟩
              have hmem2 : Val.vstr t ∈ seen ++ [Val.vstr t] := by simp
              rw [h2, hnc]
              simp only [hmem, hmem2, if_true, List.count_append]
              have hone : List.count (dupPortMsg fp (Val.vstr t))
                  [dupPortMsg fp (Val.vstr t)] = 1 := by simp
              rw [hone]
              omega
            · obtain ⟨res, h1, h2⟩ := servicePortLoop_count fp t hs rest
                (seen ++ [Val.vstr t]) errs hrest
              refine ⟨res, by rw [spl_fresh hname htrunc hmem]; exact h1, ?_⟩
              have hmem2 : Val.vstr t ∈ seen ++ [Val.vstr t] := by simp
              rw [h2, hnc]
              simp only [hmem, hmem2, if_true, if_false]
              omega
          · have hnc : namedCount s (Val.vmap m :: rest) = namedCount s rest := by
              simp [namedCount, List.countP_cons, pNameOf, hname, hts]
            have hcnt0 : List.count (dupPortMsg fp (Val.vstr s))
                [dupPortMsg fp (Val.vstr t)] = 0 := by
              rw [List.count_eq_zero]
              intro hc
              rw [List.mem_singleton] at hc
              exact hts (dupPortMsg_inj_str hc).symm
            have hmemiff : (Val.vstr s ∈ seen ++ [Val.vstr t]) ↔ Val.vstr s ∈ seen := by
              simp only [List.mem_append, List.mem_singleton]
              constructor
              · rintro (h | h)
                · exact h
                · exact absurd (Val.vstr.inj h).symm hts
              · intro h
                exact Or.inl h
            by_cases hmem : Val.vstr t ∈ seen
            · obtain ⟨res, h1, h2⟩ := servicePortLoop_count fp s hs rest
                (seen ++ [Val.vstr t]) (errs ++ [dupPortMsg fp (Val.vstr t)]) hrest
              refine ⟨res, by rw [spl_dup hname htrunc hmem]; exact h1, ?_⟩
              rw [h2, hnc, List.count_append, hcnt0]
              by_cases hmem3 : Val.vstr s ∈ seen
              · simp [hmem3, hmemiff.mpr hmem3]
              · have hno : ¬ (Val.vstr s ∈ seen ++ [Val.vstr t]) :=
                  fun hc => hmem3 (hmemiff.mp hc)
                simp [hmem3, hno]
            · obtain ⟨res, h1, h2⟩ := servicePortLoop_count fp s hs rest
                (seen ++ [Val.vstr t]) errs hrest
              refine ⟨res, by rw [spl_fresh hname htrunc hmem]; exact h1, ?_⟩
              rw [h2, hnc]
              by_cases hmem3 : Val.vstr s ∈ seen
              · simp [hmem3, hmemiff.mpr hmem3]
              · have hno : ¬ (Val.vstr s ∈ seen ++ [Val.vstr t]) :=
                  fun hc => hmem3 (hmemiff.mp hc)
                simp [hmem3, hno]

/-- The loop emits nothing when no port has a truthy name. -/
theorem servicePortLoop_no_truthy (fp : String) :
    ∀ (ports seen : List Val) (errs : List String),
      (∀ p ∈ ports, ∃ pm, p = Val.vmap pm ∧
        pyTruthy ((mget pm "name").getD .vnull) = false) →
      servicePortLoop fp ports seen errs = some errs
  | [], _, _, _ => rfl
  | p :: rest, seen, errs, h => by
    obtain ⟨pm, rfl, hf⟩ := h p (List.mem_cons_self _ _)
    rw [spl_skip rfl hf]
    exact servicePortLoop_no_truthy fp rest seen errs
      (fun q hq => h q (List.mem_cons_of_mem _ hq))

/-- C2: in a Service with well-shaped ports, the name `s` (non-empty
string) borne by n ports yields exactly n-1 duplicate-name Errors (Nat
truncation: none for n ≤ 1), and ports with no truthy name never yield
any Error. -/
theorem c2_duplicate_port_names (fp s : String) (doc spec : Obj) (ports : List Val)
    (hs : s ≠ "")
    (hspec : (mget doc "spec").getD (.vmap []) = .vmap spec)
    (hports : (mget spec "ports").getD (.vlist []) = .vlist ports)
    (hshape : ports.all portShapeOk = true) :
    ∃ errs warns, validate_service doc fp = some (errs, warns) ∧
      errs.count (dupPortMsg fp (.vstr s)) = namedCount s ports - 1 ∧
      ((∀ p ∈ ports, ∃ pm, p = Val.vmap pm ∧
          pyTruthy ((mget pm "name").getD .vnull) = false) → errs = []) := by
  obtain ⟨res, h1, h2⟩ := servicePortLoop_count fp s hs ports [] [] hshape
  refine ⟨res, (if !(Val.beq ((mget spec "clusterIP").getD .vnull) (.vstr "None"))
      && !(pyTruthy ((mget spec "selector").getD (.vmap []))) then [noSelWarn fp]
    else []), ?_, ?_, ?_⟩
  · simp [validate_service, hspec, hports, Val.asMap, Val.asList, h1]
  · simpa using h2
  · intro hnt
    have hz := servicePortLoop_no_truthy fp ports [] [] hnt
    rw [h1] at hz
    exact Option.some.inj hz

/-- Witness for C2: three ports named `http` produce exactly two
duplicate-name errors. -/
theorem c2_witness :
    ∃ errs warns, validate_service
        [("spec", Val.vmap [("selector", Val.vmap [("app", Val.vstr "x")]),
          ("ports", Val.vlist
            [Val.vmap [("name", Val.vstr "http"), ("port", Val.vint 80)],
             Val.vmap [("name", Val.vstr "http"), ("port", Val.vint 81)],
             Val.vmap [("name", Val.vstr "http"), ("port", Val.vint 82)]])])]
        "s.yaml" = some (errs, warns) ∧
      errs.count (dupPortMsg "s.yaml" (Val.vstr "http")) = 2 := by
  obtain ⟨errs, warns, h1, h2, h3⟩ := c2_duplicate_port_names "s.yaml" "http"
    [("spec", Val.vmap [("selector", Val.vmap [("app", Val.vstr "x")]),
      ("ports", Val.vlist
        [Val.vmap [("name", Val.vstr "http"), ("port", Val.vint 80)],
         Val.vmap [("name", Val.vstr "http"), ("port", Val.vint 81)],
         Val.vmap [("name", Val.vstr "http"), ("port", Val.vint 82)]])])]
    [("selector", Val.vmap [("app", Val.vstr "x")]),
      ("ports", Val.vlist
        [Val.vmap [("name", Val.vstr "http"), ("port", Val.vint 80)],
         Val.vmap [("name", Val.vstr "http"), ("port", Val.vint 81)],
         Val.vmap [("name", Val.vstr "http"), ("port", Val.vint 82)]])]
    [Val.vmap [("name", Val.vstr "http"), ("port", Val.vint 80)],
     Val.vmap [("name", Val.vstr "http"), ("port", Val.vint 81)],
     Val.vmap [("name", Val.vstr "http"), ("port", Val.vint 82)]]
    (by decide) (by decide) (by decide) (by decide)
  refine ⟨errs, warns, h1, ?_⟩
  rw [h2]
  decide

/-- Counterexample for C1 as stated: (i) with selector
`{app: alpha}` and an empty template label mapping, the selector key is
absent from the template labels yet zero Errors are emitted (the check is
skipped when either mapping is falsy); (ii) in the mismatch case
`{app: alpha}` vs `{app: beta}`, the single Error emitted does not name
the template value `beta` — it names only the selector key and value. -/
theorem c1_counterexample :
    (validate_deployment
        [("kind", Val.vstr "Deployment"),
         ("spec", Val.vmap
           [("selector", Val.vmap [("matchLabels", Val.vmap [("app", Val.vstr "alpha")])]),
            ("template", Val.vmap [("metadata", Val.vmap [])])])] "f.yaml" =
      some ([], [labelsWarn "f.yaml"])) ∧
    (validate_deployment
        [("kind", Val.vstr "Deployment"),
         ("spec", Val.vmap
           [("selector", Val.vmap [("matchLabels", Val.vmap [("app", Val.vstr "alpha")])]),
            ("template", Val.vmap [("metadata", Val.vmap
              [("labels", Val.vmap [("app", Val.vstr "beta")])])])])] "f.yaml" =
      some ([selMsg "f.yaml" "app" (Val.vstr "alpha")], [])) ∧
    strContains (selMsg "f.yaml" "app" (Val.vstr "alpha")) "beta" = false :=
  ⟨by decide, by decide, by decide⟩

/-- A selector-mismatch error is never a privileged-container error. -/
theorem selMsg_ne_privErr (fp k : String) (v : Val) (nm : String) :
    selMsg fp k v ≠ privErr fp nm := by
  intro h
  have hd := congrArg String.data h
  simp only [selMsg, privErr, String.data_append, List.append_assoc] at hd
  have hc := List.append_cancel_left hd
  simp only [List.cons_append] at hc
  injection hc with e1 hc
  injection hc with e2 hc
  injection hc with e3 hc
  exact absurd e3 (by decide)

/-- Every error the container loop emits is a privileged-container
error. -/
theorem containerChecks_err_shape (fp : String) :
    ∀ (cs : List Val) (res : List String × List String),
      containerChecks fp cs = some res → ∀ e ∈ res.1, ∃ nm, e = privErr fp nm
  | [], res, h, e, he => by
    simp only [containerChecks, Option.some.injEq] at h
    rw [← h] at he
    simp at he
  | c :: rest, res, h, e, he => by
    cases hc : c.asMap with
    | none => simp [containerChecks, hc] at h
    | some cm =>
      cases him : ((mget cm "image").getD (Val.vstr "")).asStr with
      | none => simp [containerChecks, hc, him] at h
      | some image =>
        cases hres : ((mget cm "resources").getD (Val.vmap [])).asMap with
        | none => simp [containerChecks, hc, him, hres] at h
        | some resources =>
          cases hsc : ((mget cm "securityContext").getD (Val.vmap [])).asMap with
          | none => simp [containerChecks, hc, him, hres, hsc] at h
          | some sc =>
            cases hrest : containerChecks fp rest with
            | none => simp [containerChecks, hc, him, hres, hsc, hrest] at h
            | some restRes =>
              have hval : containerChecks fp (c :: rest) = some
                  ((if pyTruthyOpt (mget sc "privileged") then
                      [privErr fp (pyStr ((mget cm "name").getD (.vstr "unnamed")))]
                    else []) ++ restRes.1,
                   (if strContains image ":latest" || !(strContains image ":") then
                      [imageWarn fp (pyStr ((mget cm "name").getD (.vstr "unnamed")))]
                    else []) ++
                   (if pyTruthyOpt (mget resources "limits") then [] else
                      [limitsWarn fp (pyStr ((mget cm "name").getD (.vstr "unnamed")))]) ++
                   (if pyTruthyOpt (mget resources "requests") then [] else
                      [requestsWarn fp (pyStr ((mget cm "name").getD (.vstr "unnamed")))]) ++
                   (if pyTruthyOpt (mget sc "runAsNonRoot") then [] else
                      [nonRootWarn fp (pyStr ((mget cm "name").getD (.vstr "unnamed")))]) ++
                   (if pyTruthyOpt (mget sc "readOnlyRootFilesystem") then [] else
                      [roRootWarn fp (pyStr ((mget cm "name").getD (.vstr "unnamed")))]) ++
                   restRes.2) := by
                simp [containerChecks, hc, him, hres, hsc, hrest]
              rw [hval] at h
              injection h with h'
              rw [← h'] at he
              rcases List.mem_append.mp he with hin | hin
              · by_cases hpriv : pyTruthyOpt (mget sc "privileged") = true
                · rw [if_pos hpriv] at hin
                  rw [List.mem_singleton] at hin
                  exact ⟨_, hin⟩
                · rw [if_neg hpriv] at hin
                  simp at hin
              · exact containerChecks_err_shape fp rest restRes hrest e hin

/-- Splitting two equal concatenations at the first occurrence of a
separator character absent from both left parts. -/
theorem append_eq_char_split :
    ∀ (a b r s : List Char), '=' ∉ a → '=' ∉ b →
      a ++ '=' :: r = b ++ '=' :: s → a = b ∧ r = s
  | [], [], r, s, _, _, h => ⟨rfl, by simpa using h⟩
  | [], c :: bs, r, s, _, hb, h => by
    simp only [List.nil_append, List.cons_append] at h
    injection h with h1 h2
    rw [← h1] at hb
    exact absurd (List.mem_cons_self _ _) hb
  | a :: as, [], r, s, ha, _, h => by
    simp only [List.nil_append, List.cons_append] at h
    injection h with h1 h2
    rw [h1] at ha
    exact absurd (List.mem_cons_self _ _) ha
  | a :: as, b :: bs, r, s, ha, hb, h => by
    simp only [List.cons_append] at h
    injection h with h1 h2
    obtain ⟨hab, hrs⟩ := append_eq_char_split as bs r s
      (fun hm => ha (List.mem_cons_of_mem _ hm))
      (fun hm => hb (List.mem_cons_of_mem _ hm)) h2
    exact ⟨by rw [h1, hab], hrs⟩

/-- On label keys free of `=` and string label values, the
selector-mismatch error message determines the key/value pair. -/
theorem selMsg_inj {fp k1 k2 s1 s2 : String}
    (hk1 : '=' ∉ k1.data) (hk2 : '=' ∉ k2.data)
    (h : selMsg fp k1 (.vstr s1) = selMsg fp k2 (.vstr s2)) : k1 = k2 ∧ s1 = s2 := by
  have hd := congrArg String.data h
  simp only [selMsg, pyStr, String.data_append, List.append_assoc] at hd
  have hc := List.append_cancel_left (List.append_cancel_left hd)
  simp only [List.singleton_append] at hc
  obtain ⟨hk, hv⟩ := append_eq_char_split _ _ _ _ hk1 hk2 hc
  exact ⟨String.ext hk, String.ext (List.append_cancel_right hv)⟩

/-- Closed form of the selector/template agreement check on two
mappings. -/
theorem selectorErrors_maps (fp : String) (sel tl : Obj) :
    selectorErrors fp (.vmap sel) (.vmap tl) =
      some (if !sel.isEmpty && !tl.isEmpty then
        (sel.filter (fun kv => !(Val.beq ((mget tl kv.1).getD .vnull) kv.2))).map
          (fun kv => selMsg fp kv.1 kv.2) else []) := by
  by_cases hne : (!sel.isEmpty && !tl.isEmpty) = true
  · simp [selectorErrors, pyTruthy, Val.asMap, hne]
  · rw [Bool.not_eq_true] at hne
    simp [selectorErrors, pyTruthy, Val.asMap, hne]

/-- Counting one selector-mismatch message among the emitted selector
errors: exactly one occurrence per mismatched selector pair, none
otherwise, for a selector mapping with distinct `=`-free keys and string
values. -/
theorem selErrs_count (fp k vs : String) (hk : '=' ∉ k.data) :
    ∀ (sel : List (String × Val)) (tl : Obj),
      sel.all selPairOk = true → (sel.map Prod.fst).Nodup →
      ((sel.filter (fun kv => !(Val.beq ((mget tl kv.1).getD .vnull) kv.2))).map
        (fun kv => selMsg fp kv.1 kv.2)).count (selMsg fp k (.vstr vs)) =
      (if (k, Val.vstr vs) ∈ sel ∧ (mget tl k).getD .vnull ≠ .vstr vs then 1 else 0)
  | [], tl, _, _ => by simp
  | (k1, v1) :: rest, tl, hall, hnodup => by
    rw [List.all_cons, Bool.and_eq_true] at hall
    obtain ⟨hp, hrest⟩ := hall
    rw [List.map_cons, List.nodup_cons] at hnodup
    obtain ⟨hk1notin, hnodup2⟩ := hnodup
    cases v1 with
    | vnull => simp [selPairOk] at hp
    | vbool b => simp [selPairOk] at hp
    | vint n => simp [selPairOk] at hp
    | vlist l => simp [selPairOk] at hp
    | vmap mm => simp [selPairOk] at hp
    | vstr s1 =>
      have hk1 : '=' ∉ k1.data := by
        simp [selPairOk] at hp
        exact hp
      have ih := selErrs_count fp k vs hk rest tl hrest hnodup2
      by_cases hpred : (!(Val.beq ((mget tl k1).getD .vnull) (Val.vstr s1))) = true
      · rw [List.filter_cons, if_pos hpred, List.map_cons, List.count_cons, ih]
        have hbeq : Val.beq ((mget tl k1).getD .vnull) (Val.vstr s1) = false := by
          simpa using hpred
        have hmm1 : (mget tl k1).getD .vnull ≠ .vstr s1 :=
          (val_beq_eq_false_iff _ _).mp hbeq
        by_cases hhead : k1 = k ∧ s1 = vs
        · obtain ⟨rfl, rfl⟩ := hhead
          have hnotin : (k1, Val.vstr s1) ∉ rest := fun hm =>
            hk1notin (List.mem_map.mpr ⟨_, hm, rfl⟩)
          rw [if_neg (fun hc => hnotin hc.1)]
          rw [if_pos (⟨List.mem_cons_self _ _, hmm1⟩ :
            (k1, Val.vstr s1) ∈ (k1, Val.vstr s1) :: rest ∧
              (mget tl k1).getD .vnull ≠ .vstr s1)]
          simp
        · have hne : (selMsg fp k1 (Val.vstr s1) == selMsg fp k (Val.vstr vs)) = false := by
            rw [beq_eq_false_iff_ne]
            intro he
            exact hhead ⟨(selMsg_inj hk1 hk he).1, (selMsg_inj hk1 hk he).2⟩
          rw [hne]
          have hmemiff : ((k, Val.vstr vs) ∈ (k1, Val.vstr s1) :: rest ∧
                (mget tl k).getD .vnull ≠ .vstr vs) ↔
              ((k, Val.vstr vs) ∈ rest ∧ (mget tl k).getD .vnull ≠ .vstr vs) := by
            constructor
            · rintro ⟨hin, hmm⟩
              rcases List.mem_cons.mp hin with he | he
              · exfalso
                injection he with he1 he2
                exact hhead ⟨he1.symm, (Val.vstr.inj he2).symm⟩
              · exact ⟨he, hmm⟩
            · rintro ⟨hin, hmm⟩
              exact ⟨List.mem_cons_of_mem _ hin, hmm⟩
          by_cases hcond : (k, Val.vstr vs) ∈ rest ∧ (mget tl k).getD .vnull ≠ .vstr vs
          · rw [if_pos hcond, if_pos (hmemiff.mpr hcond)]
            simp
          · rw [if_neg hcond, if_neg (fun hc => hcond (hmemiff.mp hc))]
            simp
      · rw [List.filter_cons, if_neg hpred, ih]
        have hbeq : Val.beq ((mget tl k1).getD .vnull) (Val.vstr s1) = true := by
          rcases Bool.eq_false_or_eq_true (Val.beq ((mget tl k1).getD .vnull) (Val.vstr s1))
            with hb | hb
          · exact hb
          · exact absurd (by simp [hb]) hpred
        have heq1 : (mget tl k1).getD .vnull = .vstr s1 := Val.eq_of_beq _ _ hbeq
        have hmemiff : ((k, Val.vstr vs) ∈ (k1, Val.vstr s1) :: rest ∧
              (mget tl k).getD .vnull ≠ .vstr vs) ↔
            ((k, Val.vstr vs) ∈ rest ∧ (mget tl k).getD .vnull ≠ .vstr vs) := by
          constructor
          · rintro ⟨hin, hmm⟩
            rcases List.mem_cons.mp hin with he | he
            · exfalso
              injection he with he1 he2
              rw [← he1, ← he2] at heq1
              exact hmm heq1
            · exact ⟨he, hmm⟩
          · rintro ⟨hin, hmm⟩
            exact ⟨List.mem_cons_of_mem _ hin, hmm⟩
        by_cases hcond : (k, Val.vstr vs) ∈ rest ∧ (mget tl k).getD .vnull ≠ .vstr vs
        · rw [if_pos hcond, if_pos (hmemiff.mpr hcond)]
        · rw [if_neg hcond, if_neg (fun hc => hcond (hmemiff.mp hc))]

/-- C1 (amended): when both `spec.selector.matchLabels` and
`spec.template.metadata.labels` are non-empty mappings, each selector
pair whose key is absent from or differently bound in the template
labels yields exactly one Error naming that selector key and selector
value (the template value is not named), agreeing pairs yield none, and
when either mapping is empty or absent no selector Error is emitted at
all; the remaining errors are the privileged-container ones.  Stated for
selector mappings with distinct `=`-free keys and string values. -/
theorem c1_selector_mismatch (fp k vs : String)
    (doc spec template pod_spec metadata selOuter sel tl : Obj)
    (containers : List Val) (cres : List String × List String)
    (h1 : (mget doc "spec").getD (.vmap []) = .vmap spec)
    (h2 : (mget spec "template").getD (.vmap []) = .vmap template)
    (h3 : (mget template "spec").getD (.vmap []) = .vmap pod_spec)
    (h4 : (mget template "metadata").getD (.vmap []) = .vmap metadata)
    (h5 : (mget spec "selector").getD (.vmap []) = .vmap selOuter)
    (h6 : (mget selOuter "matchLabels").getD (.vmap []) = .vmap sel)
    (h7 : (mget metadata "labels").getD (.vmap []) = .vmap tl)
    (h8 : (mget pod_spec "containers").getD (.vlist []) = .vlist containers)
    (h9 : containerChecks fp containers = some cres)
    (hk : '=' ∉ k.data)
    (hsh : sel.all selPairOk = true)
    (hnodup : (sel.map Prod.fst).Nodup) :
    validate_deployment doc fp = some (
      (if !sel.isEmpty && !tl.isEmpty then
        (sel.filter (fun kv => !(Val.beq ((mget tl kv.1).getD .vnull) kv.2))).map
          (fun kv => selMsg fp kv.1 kv.2)
       else []) ++ cres.1,
      (if pyTruthyOpt (mget metadata "labels") then [] else [labelsWarn fp]) ++ cres.2) ∧
    (validate_deployment doc fp).map (fun r => r.1.count (selMsg fp k (.vstr vs))) =
      some (if (k, Val.vstr vs) ∈ sel ∧ tl ≠ [] ∧ (mget tl k).getD .vnull ≠ .vstr vs
        then 1 else 0) := by
  have hmain : validate_deployment doc fp = some (
      (if !sel.isEmpty && !tl.isEmpty then
        (sel.filter (fun kv => !(Val.beq ((mget tl kv.1).getD .vnull) kv.2))).map
          (fun kv => selMsg fp kv.1 kv.2)
       else []) ++ cres.1,
      (if pyTruthyOpt (mget metadata "labels") then [] else [labelsWarn fp]) ++ cres.2) := by
    simp [validate_deployment, h1, h2, h3, h4, h5, h6, h7, h8, h9,
      Val.asMap, Val.asList, selectorErrors_maps]
  refine ⟨hmain, ?_⟩
  rw [hmain]
  have hcres0 : cres.1.count (selMsg fp k (.vstr vs)) = 0 := by
    rw [List.count_eq_zero]
    intro hmem
    obtain ⟨nm, hnm⟩ := containerChecks_err_shape fp containers cres h9 _ hmem
    exact selMsg_ne_privErr fp k (.vstr vs) nm hnm
  simp only [Option.map_some']
  rw [Option.some.injEq, List.count_append, hcres0, Nat.add_zero]
  by_cases htl : tl = []
  · subst htl
    simp
  · by_cases hsel : sel = []
    · subst hsel
      simp
    · have hcond : (!sel.isEmpty && !tl.isEmpty) = true := by
        simp [List.isEmpty_iff, hsel, htl]
      rw [if_pos hcond, selErrs_count fp k vs hk sel tl hsh hnodup]
      by_cases hc : (k, Val.vstr vs) ∈ sel ∧ (mget tl k).getD .vnull ≠ .vstr vs
      · rw [if_pos hc, if_pos ⟨hc.1, htl, hc.2⟩]
      · rw [if_neg hc, if_neg (fun hcc => hc ⟨hcc.1, hcc.2.2⟩)]

/-- Witness for C1 (amended): selector `{app: x}` against template
labels `{app: y}` — the mismatch Error for `app=x` is counted exactly
once. -/
theorem c1_witness :
    (validate_deployment
        [("kind", Val.vstr "Deployment"),
         ("spec", Val.vmap
           [("selector", Val.vmap [("matchLabels", Val.vmap [("app", Val.vstr "x")])]),
            ("template", Val.vmap [("metadata", Val.vmap
              [("labels", Val.vmap [("app", Val.vstr "y")])])])])] "f.yaml").map
      (fun r => r.1.count (selMsg "f.yaml" "app" (Val.vstr "x"))) = some 1 := by
  have h := (c1_selector_mismatch "f.yaml" "app" "x"
    [("kind", Val.vstr "Deployment"),
     ("spec", Val.vmap
       [("selector", Val.vmap [("matchLabels", Val.vmap [("app", Val.vstr "x")])]),
        ("template", Val.vmap [("metadata", Val.vmap
          [("labels", Val.vmap [("app", Val.vstr "y")])])])])]
    [("selector", Val.vmap [("matchLabels", Val.vmap [("app", Val.vstr "x")])]),
     ("template", Val.vmap [("metadata", Val.vmap
       [("labels", Val.vmap [("app", Val.vstr "y")])])])]
    [("metadata", Val.vmap [("labels", Val.vmap [("app", Val.vstr "y")])])]
    [] [("labels", Val.vmap [("app", Val.vstr "y")])]
    [("matchLabels", Val.vmap [("app", Val.vstr "x")])]
    [("app", Val.vstr "x")] [("app", Val.vstr "y")]
    [] ([], [])
    (by decide) (by decide) (by decide) (by decide) (by decide) (by decide)
    (by decide) (by decide) (by decide) (by decide) (by decide) (by decide)).2
  rw [h]
  decide

/-- C9: in the shared per-file loop of both mains, a file with at least
one Error contributes none of its Warnings: its printed block does not
depend on its warnings at all, and the accumulated `all_warnings` (whose
length is the summary's Warning count) consists exactly of the warnings
of the files with zero errors. -/
theorem c9_warnings_dropped (results : List (String × List String × List String)) :
    (processFiles results).2.2 =
      (results.filter (fun r => r.2.1.isEmpty)).flatMap (fun r => r.2.2) ∧
    (∀ name errs warns, errs ≠ [] → fileBlock name errs warns = fileBlock name errs []) := by
  constructor
  · induction results with
    | nil => rfl
    | cons r rest ih =>
      by_cases he : r.2.1.isEmpty
      · by_cases hw : r.2.2.isEmpty
        · have hw0 : r.2.2 = [] := List.isEmpty_iff.mp hw
          simp [processFiles, he, hw, ih, hw0]
        · simp [processFiles, he, hw, ih]
      · simp [processFiles, he, ih]
  · intro name errs warns he
    have hb : errs.isEmpty = false := by
      rw [← Bool.not_eq_true, List.isEmpty_iff]
      exact he
    simp [fileBlock, hb]

/-- Witness for C9: one file with an Error and a Warning contributes no
warning to the total, and its block ignores the warning. -/
theorem c9_witness :
    (processFiles [("a.yaml", ["E"], ["W"])]).2.2 = [] ∧
      fileBlock "a.yaml" ["E"] ["W"] = fileBlock "a.yaml" ["E"] [] := by
  have h := c9_warnings_dropped [("a.yaml", ["E"], ["W"])]
  refine ⟨?_, h.2 "a.yaml" ["E"] ["W"] (by decide)⟩
  rw [h.1]
  decide

/-- The error accumulator of the per-file loop collects exactly every
file's errors, in order. -/
theorem processFiles_errors (rs : List (String × List String × List String)) :
    (processFiles rs).2.1 = rs.flatMap (fun r => r.2.1) := by
  induction rs with
  | nil => rfl
  | cons r rest ih =>
    by_cases he : r.2.1.isEmpty
    · have h0 : r.2.1 = [] := List.isEmpty_iff.mp he
      simp [processFiles, he, ih, h0]
    · simp [processFiles, he, ih]

/-- The baseline run accumulates as many errors as the per-file error
counts add up to, independent of the sort. -/
theorem runSimple_errors_length (files : List MFile) :
    (runSimple files).2.1.length = totalErrorsSimple files := by
  rw [runSimple, processFiles_errors, List.length_flatMap, List.map_map,
    totalErrorsSimple]
  exact ((List.mergeSort_perm files fileLe).map _).sum_eq

/-- The advanced run accumulates as many errors as the per-file error
counts add up to, independent of the sort. -/
theorem runAdvanced_errors_length (files : List MFile) :
    (runAdvanced files).2.1.length =
      ((advFiles files).map
        (fun f => (validate_advanced (pathOf f) f.name f.docs).1.length)).sum := by
  rw [runAdvanced, processFiles_errors, List.length_flatMap, List.map_map]
  exact ((List.mergeSort_perm (advFiles files) fileLe).map _).sum_eq

/-- Counterexample for C6 as stated: on a directory with no YAML files
the baseline validator exits 1 although the total number of Error
findings is zero. -/
theorem c6_counterexample : mainSimpleExit [] = 1 ∧ totalErrorsSimple [] = 0 :=
  ⟨rfl, rfl⟩

/-- C6 (amended): the advanced validator exits 1 exactly when the total
Error count is positive (and 0 otherwise); the baseline validator
behaves the same whenever at least one YAML file is present, but exits 1
with zero Error findings when there is no file; Warnings never influence
either exit code. -/
theorem c6_exit_code (files : List MFile) :
    (files ≠ [] → (mainSimpleExit files = 1 ↔ 0 < totalErrorsSimple files)) ∧
    (mainAdvancedExit files = 1 ↔ 0 < totalErrorsAdvanced files) ∧
    (mainSimpleExit files = 0 ∨ mainSimpleExit files = 1) ∧
    (mainAdvancedExit files = 0 ∨ mainAdvancedExit files = 1) := by
  refine ⟨?_, ?_, ?_, ?_⟩
  · intro hne
    have hf : files.isEmpty = false := by
      rw [← Bool.not_eq_true, List.isEmpty_iff]
      exact hne
    rw [mainSimpleExit]
    simp only [hf, Bool.false_eq_true, if_false]
    rw [← runSimple_errors_length]
    by_cases he : (runSimple files).2.1.isEmpty
    · have h0 : (runSimple files).2.1 = [] := List.isEmpty_iff.mp he
      simp [he, h0]
    · have hpos : 0 < (runSimple files).2.1.length := by
        rw [List.length_pos_iff_ne_nil]
        intro hc
        rw [hc] at he
        exact he rfl
      simp [he, hpos]
  · rw [mainAdvancedExit, totalErrorsAdvanced]
    have hc1 : (check_label_consistency files).1 = [] := rfl
    rw [hc1]
    simp only [List.append_nil, Nat.add_zero, List.length_nil]
    rw [← runAdvanced_errors_length]
    by_cases he : (runAdvanced files).2.1.isEmpty
    · have h0 : (runAdvanced files).2.1 = [] := List.isEmpty_iff.mp he
      simp [he, h0]
    · have hpos : 0 < (runAdvanced files).2.1.length := by
        rw [List.length_pos_iff_ne_nil]
        intro hc
        rw [hc] at he
        exact he rfl
      simp [he, hpos]
  · rw [mainSimpleExit]
    by_cases hf : files.isEmpty
    · simp [hf]
    · by_cases he : (runSimple files).2.1.isEmpty <;> simp [hf, he]
  · rw [mainAdvancedExit]
    by_cases he : ((runAdvanced files).2.1 ++ (check_label_consistency files).1).isEmpty <;>
      simp [he]

/-- Witness for C6 (amended): a one-file corpus whose Service has a
duplicate port name gives a positive error total and exit code 1 in both
validators; the implication's premise (a non-empty file list) is
discharged concretely. -/
theorem c6_witness :
    mainSimpleExit [⟨"s.yaml", [Val.vmap [("kind", Val.vstr "Service"),
      ("metadata", Val.vmap [])]]⟩] = 1 ∧
    mainAdvancedExit [⟨"s.yaml", [Val.vmap [("kind", Val.vstr "Service"),
      ("spec", Val.vmap [("ports", Val.vlist
        [Val.vmap [("name", Val.vstr "http")],
         Val.vmap [("name", Val.vstr "http")]])])]]⟩] = 1 := by
  constructor
  · have h := (c6_exit_code [⟨"s.yaml", [Val.vmap [("kind", Val.vstr "Service"),
      ("metadata", Val.vmap [])]]⟩]).1 (by simp)
    rw [h]
    decide
  · have h := (c6_exit_code [⟨"s.yaml", [Val.vmap [("kind", Val.vstr "Service"),
      ("spec", Val.vmap [("ports", Val.vlist
        [Val.vmap [("name", Val.vstr "http")],
         Val.vmap [("name", Val.vstr "http")]])])]]⟩]).2.1
    rw [h]
    decide

/-- C5: the cross-file consistency checker never emits Errors and emits
exactly one Warning, citing the distinct count, iff the number of
distinct `metadata.labels.app` values unioned across the scanned files
exceeds 5; concretely six distinct values warn once citing 6 while
exactly five distinct values produce no Warning. -/
theorem c5_label_sprawl :
    (∀ files : List MFile,
      (check_label_consistency files).1 = [] ∧
      (check_label_consistency files).2 =
        (if distinctAppCount files > 5 then [labelCountMsg (distinctAppCount files)]
         else []) ∧
      ((check_label_consistency files).2 ≠ [] ↔ 5 < distinctAppCount files)) ∧
    check_label_consistency
      [⟨"a.yaml", [Val.vmap [("metadata", Val.vmap [("labels", Val.vmap [("app", Val.vstr "a")])])]]⟩,
       ⟨"b.yaml", [Val.vmap [("metadata", Val.vmap [("labels", Val.vmap [("app", Val.vstr "b")])])]]⟩,
       ⟨"c.yaml", [Val.vmap [("metadata", Val.vmap [("labels", Val.vmap [("app", Val.vstr "c")])])]]⟩,
       ⟨"d.yaml", [Val.vmap [("metadata", Val.vmap [("labels", Val.vmap [("app", Val.vstr "d")])])]]⟩,
       ⟨"e.yaml", [Val.vmap [("metadata", Val.vmap [("labels", Val.vmap [("app", Val.vstr "e")])])]]⟩,
       ⟨"f.yaml", [Val.vmap [("metadata", Val.vmap [("labels", Val.vmap [("app", Val.vstr "f")])])]]⟩] =
      ([], [labelCountMsg 6]) ∧
    check_label_consistency
      [⟨"a.yaml", [Val.vmap [("metadata", Val.vmap [("labels", Val.vmap [("app", Val.vstr "a")])])]]⟩,
       ⟨"b.yaml", [Val.vmap [("metadata", Val.vmap [("labels", Val.vmap [("app", Val.vstr "b")])])]]⟩,
       ⟨"c.yaml", [Val.vmap [("metadata", Val.vmap [("labels", Val.vmap [("app", Val.vstr "c")])])]]⟩,
       ⟨"d.yaml", [Val.vmap [("metadata", Val.vmap [("labels", Val.vmap [("app", Val.vstr "d")])])]]⟩,
       ⟨"e.yaml", [Val.vmap [("metadata", Val.vmap [("labels", Val.vmap [("app", Val.vstr "e")])])]]⟩] =
      ([], []) := by
  refine ⟨?_, by decide, by decide⟩
  intro files
  refine ⟨rfl, rfl, ?_⟩
  by_cases hc : 5 < distinctAppCount files
  · simp [check_label_consistency, hc]
  · simp [check_label_consistency, hc]

/-- The membership test `setInsertV` uses. -/
theorem any_beq_iff_mem2 (v : Val) (l : List Val) :
    (l.any (fun x => Val.beq x v)) = true ↔ v ∈ l := by
  simp only [List.any_eq_true]
  constructor
  · rintro ⟨x, hx, hb⟩
    rw [← Val.eq_of_beq x v hb]
    exact hx
  · intro hv
    exact ⟨v, hv, Val.beq_refl v⟩

theorem mem_setInsertV {a v : Val} {s : List Val} :
    a ∈ setInsertV s v ↔ a ∈ s ∨ a = v := by
  rw [setInsertV]
  by_cases h : v ∈ s
  · rw [if_pos ((any_beq_iff_mem2 _ _).mpr h)]
    constructor
    · exact Or.inl
    · rintro (ha | rfl)
      · exact ha
      · exact h
  · rw [if_neg (fun hc => h ((any_beq_iff_mem2 _ _).mp hc))]
    simp

theorem nodup_setInsertV {v : Val} {s : List Val} (h : s.Nodup) :
    (setInsertV s v).Nodup := by
  rw [setInsertV]
  by_cases hm : v ∈ s
  · rw [if_pos ((any_beq_iff_mem2 _ _).mpr hm)]
    exact h
  · rw [if_neg (fun hc => hm ((any_beq_iff_mem2 _ _).mp hc))]
    refine List.Nodup.append h (List.nodup_singleton v) ?_
    intro x hx hx2
    rw [List.mem_singleton] at hx2
    subst hx2
    exact hm hx

theorem mem_unionV {a : Val} : ∀ {t s : List Val}, a ∈ unionV s t ↔ a ∈ s ∨ a ∈ t
  | [], s => by simp [unionV]
  | v :: rest, s => by
    rw [unionV, List.foldl_cons]
    have ih : a ∈ unionV (setInsertV s v) rest ↔ a ∈ setInsertV s v ∨ a ∈ rest :=
      mem_unionV
    rw [unionV] at ih
    rw [ih, mem_setInsertV]
    constructor
    · rintro ((h | rfl) | h)
      · exact Or.inl h
      · exact Or.inr (List.mem_cons_self _ _)
      · exact Or.inr (List.mem_cons_of_mem _ h)
    · rintro (h | h)
      · exact Or.inl (Or.inl h)
      · rcases List.mem_cons.mp h with rfl | h2
        · exact Or.inl (Or.inr rfl)
        · exact Or.inr h2

theorem nodup_unionV : ∀ (t s : List Val), s.Nodup → (unionV s t).Nodup
  | [], _, h => h
  | v :: rest, s, h => by
    rw [unionV, List.foldl_cons]
    exact nodup_unionV rest (setInsertV s v) (nodup_setInsertV h)

theorem mem_allApps {v : Val} :
    ∀ (fs : List MFile) (init : List Val),
      (v ∈ fs.foldl (fun acc f => unionV acc (fileAppsGo f.docs [])) init ↔
        v ∈ init ∨ ∃ f ∈ fs, v ∈ fileAppsGo f.docs [])
  | [], init => by simp
  | f :: rest, init => by
    rw [List.foldl_cons, mem_allApps rest (unionV init (fileAppsGo f.docs [])),
      mem_unionV]
    constructor
    · rintro ((h | h) | ⟨g, hg, hv⟩)
      · exact Or.inl h
      · exact Or.inr ⟨f, List.mem_cons_self _ _, h⟩
      · exact Or.inr ⟨g, List.mem_cons_of_mem _ hg, hv⟩
    · rintro (h | ⟨g, hg, hv⟩)
      · exact Or.inl (Or.inl h)
      · rcases List.mem_cons.mp hg with rfl | hg2
        · exact Or.inl (Or.inr hv)
        · exact Or.inr ⟨g, hg2, hv⟩

theorem nodup_allApps :
    ∀ (fs : List MFile) (init : List Val), init.Nodup →
      (fs.foldl (fun acc f => unionV acc (fileAppsGo f.docs [])) init).Nodup
  | [], _, h => h
  | f :: rest, init, h => by
    rw [List.foldl_cons]
    exact nodup_allApps rest _ (nodup_unionV _ _ h)

/-- The number of distinct `app` labels does not depend on the order in
which the directory's files are enumerated. -/
theorem distinctAppCount_perm {l₁ l₂ : List MFile} (hp : l₁.Perm l₂) :
    distinctAppCount l₁ = distinctAppCount l₂ := by
  have hperm : ((advFiles l₁).foldl (fun acc f => unionV acc (fileAppsGo f.docs [])) []).Perm
      ((advFiles l₂).foldl (fun acc f => unionV acc (fileAppsGo f.docs [])) []) := by
    rw [List.perm_ext_iff_of_nodup (nodup_allApps _ _ List.nodup_nil)
      (nodup_allApps _ _ List.nodup_nil)]
    intro a
    rw [mem_allApps, mem_allApps]
    simp only [List.not_mem_nil, false_or]
    constructor
    · rintro ⟨f, hf, hv⟩
      exact ⟨f, (hp.filter _).mem_iff.mp hf, hv⟩
    · rintro ⟨f, hf, hv⟩
      exact ⟨f, (hp.filter _).mem_iff.mpr hf, hv⟩
  rw [distinctAppCount, distinctAppCount]
  exact hperm.length_eq

/-- Two sorted permutations of each other with pairwise distinct sort
keys are equal. -/
theorem sorted_perm_nodup_key_eq {α : Type} (key : α → String) :
    ∀ (l₁ l₂ : List α), l₁.Perm l₂ →
      l₁.Pairwise (fun a b => key a ≤ key b) →
      l₂.Pairwise (fun a b => key a ≤ key b) →
      (l₁.map key).Nodup → l₁ = l₂
  | [], l₂, hp, _, _, _ => hp.nil_eq
  | a :: t, l₂, hp, hs₁, hs₂, hnd => by
    cases l₂ with
    | nil => exact absurd hp.symm.nil_eq (by simp)
    | cons b u =>
      have hab : a = b := by
        rcases List.mem_cons.mp (hp.symm.subset (List.mem_cons_self b u)) with he | hbt
        · exact he.symm
        · have h1 : key a ≤ key b := (List.pairwise_cons.mp hs₁).1 b hbt
          rcases List.mem_cons.mp (hp.subset (List.mem_cons_self a t)) with he | hau
          · exact he
          · have h2 : key b ≤ key a := (List.pairwise_cons.mp hs₂).1 a hau
            have hkey : key a = key b := le_antisymm h1 h2
            rw [List.map_cons, List.nodup_cons] at hnd
            exact absurd (List.mem_map.mpr ⟨b, hbt, hkey.symm⟩) hnd.1
      subst hab
      have htu : t.Perm u := hp.cons_inv
      have hrec := sorted_perm_nodup_key_eq key t u htu
        (List.pairwise_cons.mp hs₁).2 (List.pairwise_cons.mp hs₂).2
        (by rw [List.map_cons, List.nodup_cons] at hnd; exact hnd.2)
      rw [hrec]

theorem fileLe_trans (a b c : MFile) (h1 : fileLe a b = true) (h2 : fileLe b c = true) :
    fileLe a c = true := by
  rw [fileLe, decide_eq_true_iff] at h1 h2 ⊢
  exact le_trans h1 h2

theorem fileLe_total (a b : MFile) : (fileLe a b || fileLe b a) = true := by
  rcases le_total (pathOf a) (pathOf b) with h | h
  · have hb : fileLe a b = true := by rw [fileLe]; exact decide_eq_true h
    simp [hb]
  · have hb : fileLe b a = true := by rw [fileLe]; exact decide_eq_true h
    simp [hb]

theorem sortFiles_sorted (files : List MFile) :
    (sortFiles files).Pairwise (fun a b => pathOf a ≤ pathOf b) := by
  have h : (files.mergeSort fileLe).Pairwise (fun a b => fileLe a b = true) :=
    List.sorted_mergeSort fileLe_trans fileLe_total files
  rw [sortFiles]
  exact h.imp (fun hab => by rwa [fileLe, decide_eq_true_iff] at hab)

/-- Python's `sorted` output is a function of the file set alone when
file names are distinct (as they are within one directory). -/
theorem sortFiles_eq_of_perm {l₁ l₂ : List MFile} (hp : l₁.Perm l₂)
    (hnd : (l₁.map MFile.name).Nodup) : sortFiles l₁ = sortFiles l₂ := by
  have hperm : (sortFiles l₁).Perm (sortFiles l₂) :=
    (List.mergeSort_perm l₁ fileLe).trans (hp.trans (List.mergeSort_perm l₂ fileLe).symm)
  have hpath : (l₁.map pathOf).Nodup := by
    have hcomp : l₁.map pathOf = (l₁.map MFile.name).map (fun n => "k8s/" ++ n) := by
      rw [List.map_map]
      rfl
    rw [hcomp]
    exact hnd.map (fun x y hxy => str_lcancel hxy)
  have hnd1 : ((sortFiles l₁).map pathOf).Nodup :=
    (((List.mergeSort_perm l₁ fileLe).map pathOf).nodup_iff).mpr hpath
  exact sorted_perm_nodup_key_eq pathOf (sortFiles l₁) (sortFiles l₂) hperm
    (sortFiles_sorted l₁) (sortFiles_sorted l₂) hnd1

theorem append_lt_append_iff (p a b : List Char) :
    (p ++ a) < (p ++ b) ↔ a < b := by
  induction p with
  | nil => simp
  | cons c cs ih =>
    simp only [List.cons_append]
    constructor
    · intro h
      cases h with
      | rel h1 => exact absurd h1 (lt_irrefl c)
      | cons h1 => exact ih.mp h1
    · intro h
      exact List.Lex.cons (ih.mpr h)

theorem str_append_lt_iff (p a b : String) : (p ++ a) < (p ++ b) ↔ a < b := by
  rw [String.lt_iff_toList_lt, String.lt_iff_toList_lt]
  have h1 : (p ++ a).toList = p.toList ++ a.toList := String.data_append p a
  have h2 : (p ++ b).toList = p.toList ++ b.toList := String.data_append p b
  rw [h1, h2]
  exact append_lt_append_iff p.toList a.toList b.toList

theorem str_append_le_iff (p a b : String) : (p ++ a) ≤ (p ++ b) ↔ a ≤ b := by
  rw [le_iff_lt_or_eq, le_iff_lt_or_eq, str_append_lt_iff]
  constructor
  · rintro (h | h)
    · exact Or.inl h
    · exact Or.inr (str_lcancel h)
  · rintro (h | rfl)
    · exact Or.inl h
    · exact Or.inr rfl

/-- The per-file blocks follow the lexicographic order of file names. -/
theorem sortFiles_names_sorted (files : List MFile) :
    ((sortFiles files).map MFile.name).Pairwise (· ≤ ·) := by
  have h := sortFiles_sorted files
  rw [List.pairwise_map]
  exact h.imp (fun hab => (str_append_le_iff "k8s/" _ _).mp hab)

/-- C8: both validators' outputs are functions of the file set alone —
any two enumerations of the same unchanged directory (permutations; a
directory guarantees distinct file names) yield byte-identical reports
and equal exit codes, so running twice yields identical output — and the
per-file blocks appear in lexicographic order of file names. -/
theorem c8_reports_deterministic :
    (∀ l₁ l₂ : List MFile, l₁.Perm l₂ → (l₁.map MFile.name).Nodup →
      simpleReport l₁ = simpleReport l₂ ∧ advancedReport l₁ = advancedReport l₂ ∧
      mainSimpleExit l₁ = mainSimpleExit l₂ ∧ mainAdvancedExit l₁ = mainAdvancedExit l₂) ∧
    (∀ l : List MFile, ((sortFiles l).map MFile.name).Pairwise (· ≤ ·)) := by
  refine ⟨?_, sortFiles_names_sorted⟩
  intro l₁ l₂ hp hnd
  have hlen : l₁.length = l₂.length := hp.length_eq
  have hsort : sortFiles l₁ = sortFiles l₂ := sortFiles_eq_of_perm hp hnd
  have hrunS : runSimple l₁ = runSimple l₂ := by rw [runSimple, runSimple, hsort]
  have hadvp : (advFiles l₁).Perm (advFiles l₂) := hp.filter _
  have hndadv : ((advFiles l₁).map MFile.name).Nodup :=
    hnd.sublist ((List.filter_sublist l₁).map MFile.name)
  have hsortadv : sortFiles (advFiles l₁) = sortFiles (advFiles l₂) :=
    sortFiles_eq_of_perm hadvp hndadv
  have hrunA : runAdvanced l₁ = runAdvanced l₂ := by
    rw [runAdvanced, runAdvanced, hsortadv]
  have hconsist : check_label_consistency l₁ = check_label_consistency l₂ := by
    rw [check_label_consistency, check_label_consistency, distinctAppCount_perm hp]
  have hempty : l₁.isEmpty = l₂.isEmpty := by
    cases l₁ with
    | nil =>
      rw [hp.nil_eq]
    | cons a t =>
      cases l₂ with
      | nil => exact absurd hp.symm.nil_eq (by simp)
      | cons b u => rfl
  refine ⟨?_, ?_, ?_, ?_⟩
  · rw [simpleReport, simpleReport, hempty, hrunS, hlen]
  · rw [advancedReport, advancedReport, hrunA, hconsist, hadvp.length_eq]
  · rw [mainSimpleExit, mainSimpleExit, hempty, hrunS]
  · rw [mainAdvancedExit, mainAdvancedExit, hrunA, hconsist]

/-- Witness for C8: swapping the enumeration order of two distinct files
leaves both reports unchanged. -/
theorem c8_witness :
    simpleReport [⟨"a.yaml", []⟩, ⟨"b.yaml", []⟩] =
      simpleReport [⟨"b.yaml", []⟩, ⟨"a.yaml", []⟩] ∧
    advancedReport [⟨"a.yaml", []⟩, ⟨"b.yaml", []⟩] =
      advancedReport [⟨"b.yaml", []⟩, ⟨"a.yaml", []⟩] := by
  have h := c8_reports_deterministic.1 [⟨"a.yaml", []⟩, ⟨"b.yaml", []⟩]
    [⟨"b.yaml", []⟩, ⟨"a.yaml", []⟩] (List.Perm.swap _ _ _) (by decide)
  exact ⟨h.1, h.2.1⟩
